import Mathlib

/-!
Verification development for the package-catalog module of the
playyoursport dashboard (source: src/lib/languages.ts, the package-catalog
section, and the schedule display helpers of src/pages/PackagesPage.tsx).

The TypeScript code is shallowly embedded:
* JS strings are `List Char` (`Str`); regex-based helpers are translated
  into explicit character-list transformations.
* JS numbers are `JsNumber` (NaN, the two infinities, or a finite value
  modelled as a rational); comparisons follow JS semantics (NaN is
  incomparable).
* The browser store (localStorage plus the window event bus) becomes
  explicit state passing: every operation takes the current `Catalog` and
  returns its result, the catalog after the call, and the list of emitted
  event names.
* `crypto.randomUUID`-based id generation is modelled by injected fresh-id
  parameters, and `new Date().getFullYear()` by an explicit argument.
-/

/-- JS strings are modelled as lists of characters. -/
abbrev Str := List Char

/-- The space character. -/
def spaceChar : Char := ' '

/-- The dash character used by slug normalization. -/
def dashChar : Char := '-'

/-- The plus character allowed at the front of a phone number. -/
def plusChar : Char := '+'

/-- The colon separating hours from minutes. -/
def colonChar : Char := ':'

/-- The dot used by `formatHour` and by email validation. -/
def dotChar : Char := '.'

/-- The at-sign of email validation. -/
def atChar : Char := '@'

/-- The opening angle bracket of an HTML tag. -/
def ltChar : Char := '<'

/-- The closing angle bracket of an HTML tag. -/
def gtChar : Char := '>'

/-- The zero digit, used for padding. -/
def zeroChar : Char := '0'

/-- Characters treated as whitespace by the embedded `trim` / `\s`. -/
def jsWhitespaceChars : List Char := [' ', '\t', '\n', '\r', '\x0b', '\x0c']

/-- Whitespace test backing `trim`, `\s+` and `\D`-style classes. -/
def isJsWhitespace (c : Char) : Bool := jsWhitespaceChars.contains c

/-- The lowercase ASCII letters. -/
def lowerAlphaChars : List Char := "abcdefghijklmnopqrstuvwxyz".toList

/-- The uppercase ASCII letters. -/
def upperAlphaChars : List Char := "ABCDEFGHIJKLMNOPQRSTUVWXYZ".toList

/-- The ASCII digits. -/
def digitChars : List Char := "0123456789".toList

/-- Characters kept by the slug filter `[^a-z0-9-]`. -/
def allowedCodeChars : List Char := "abcdefghijklmnopqrstuvwxyz0123456789-".toList

/-- Lower-to-upper case table backing `toUpperCase`. -/
def lowerUpperPairs : List (Char × Char) := lowerAlphaChars.zip upperAlphaChars

/-- Upper-to-lower case table backing `toLowerCase`. -/
def upperLowerPairs : List (Char × Char) := upperAlphaChars.zip lowerAlphaChars

/-- ASCII uppercasing of one character. -/
def toUpperChar (c : Char) : Char := (lowerUpperPairs.lookup c).getD c

/-- ASCII lowercasing of one character. -/
def toLowerChar (c : Char) : Char := (upperLowerPairs.lookup c).getD c

/-- `value.toUpperCase()`. -/
def jsToUpper (l : Str) : Str := l.map toUpperChar

/-- `value.toLowerCase()`. -/
def jsToLower (l : Str) : Str := l.map toLowerChar

/-- ASCII digit test (regex `\d`). -/
def isAsciiDigit (c : Char) : Bool := digitChars.contains c

/-- Drop leading whitespace. -/
def trimLeft (l : Str) : Str := l.dropWhile isJsWhitespace

/-- Drop trailing whitespace. -/
def trimRight : Str → Str
  | [] => []
  | c :: rest =>
    match trimRight rest with
    | [] => if isJsWhitespace c then [] else [c]
    | r => c :: r

/-- `value.trim()`. -/
def jsTrim (l : Str) : Str := trimRight (trimLeft l)

/-- Replace every maximal run of `p`-characters with the single character
`rep`; the flag records whether the previous character was in a run. -/
def collapseRunsAux (p : Char → Bool) (rep : Char) : Bool → Str → Str
  | _, [] => []
  | inRun, c :: rest =>
    if p c then
      (if inRun then collapseRunsAux p rep true rest
       else rep :: collapseRunsAux p rep true rest)
    else c :: collapseRunsAux p rep false rest

/-- `value.replace(runRegex, rep)` for a character-class run regex. -/
def collapseRuns (p : Char → Bool) (rep : Char) (l : Str) : Str :=
  collapseRunsAux p rep false l

/-- First-occurrence deduplication, the order kept by a JS `Set`. -/
def dedupFirstAux {α : Type} [DecidableEq α] (seen : List α) : List α → List α
  | [] => []
  | x :: xs => if x ∈ seen then dedupFirstAux seen xs else x :: dedupFirstAux (x :: seen) xs

/-- `Array.from(new Set(l))`. -/
def dedupFirst {α : Type} [DecidableEq α] (l : List α) : List α := dedupFirstAux [] l

/-- Code-unit lexicographic `<=` on strings (JS string comparison and the
effective order of `localeCompare` on the plain ASCII data at hand). -/
def strLe : Str → Str → Bool
  | [], _ => true
  | _ :: _, [] => false
  | a :: as, b :: bs => if a < b then true else if b < a then false else strLe as bs

/-- Code-unit lexicographic `<` on strings (JS `startTime < endTime`). -/
def strLt : Str → Str → Bool
  | [], [] => false
  | [], _ :: _ => true
  | _ :: _, [] => false
  | a :: as, b :: bs => if a < b then true else if b < a then false else strLt as bs

/-- `parts = value.split(sep)`. -/
def splitOnChar (sep : Char) : Str → List Str
  | [] => [[]]
  | c :: rest =>
    match splitOnChar sep rest with
    | [] => [[]]
    | p :: ps => if c = sep then [] :: p :: ps else (c :: p) :: ps

/-- `value.padStart(2, '0')`. -/
def padStart2Zero (l : Str) : Str :=
  if 2 ≤ l.length then l else List.replicate (2 - l.length) zeroChar ++ l

/-- One step list of the tag stripper: skip to just past the first `>`. -/
def afterFirstGt (l : Str) : Str := (l.dropWhile (fun d => !(d == gtChar))).drop 1

/-- Fueled core of `replace(/<[^>]*>/g, ' ')`: a `<` starts a tag only when
a matching `>` exists further on. -/
def stripTagsFuel : Nat → Str → Str
  | 0, l => l
  | _ + 1, [] => []
  | fuel + 1, c :: rest =>
    if c = ltChar ∧ rest.contains gtChar = true then
      spaceChar :: stripTagsFuel fuel (afterFirstGt rest)
    else c :: stripTagsFuel fuel rest

/-- `value.replace(/<[^>]*>/g, ' ')`. -/
def stripTagsJs (l : Str) : Str := stripTagsFuel l.length l

/-- JS numbers: NaN, the infinities, or a finite value (as a rational). -/
inductive JsNumber where
  | nan
  | posInf
  | negInf
  | fin (q : ℚ)
deriving DecidableEq

/-- `Number.isFinite`. -/
def JsNumber.isFinite : JsNumber → Bool
  | .fin _ => true
  | _ => false

/-- `Number.isInteger`. -/
def JsNumber.isInteger : JsNumber → Bool
  | .fin q => q.den == 1
  | _ => false

/-- Truncation toward zero on rationals, as `Math.trunc` does. -/
def truncRat (q : ℚ) : ℤ := if 0 ≤ q then ⌊q⌋ else ⌈q⌉

/-- `Math.trunc`. -/
def JsNumber.trunc : JsNumber → JsNumber
  | .fin q => .fin (truncRat q : ℚ)
  | x => x

/-- JS `<=` on numbers; any comparison with NaN is false. -/
def JsNumber.jle : JsNumber → JsNumber → Bool
  | .nan, _ => false
  | _, .nan => false
  | .negInf, _ => true
  | .posInf, .posInf => true
  | .posInf, _ => false
  | .fin _, .posInf => true
  | .fin _, .negInf => false
  | .fin p, .fin q => decide (p ≤ q)

/-- JS `<` on numbers; any comparison with NaN is false. -/
def JsNumber.jlt : JsNumber → JsNumber → Bool
  | .nan, _ => false
  | _, .nan => false
  | .negInf, .negInf => false
  | .negInf, _ => true
  | .posInf, _ => false
  | .fin _, .posInf => true
  | .fin _, .negInf => false
  | .fin p, .fin q => decide (p < q)

/-- `Math.max` on two numbers. -/
def JsNumber.jmax : JsNumber → JsNumber → JsNumber
  | .nan, _ => .nan
  | _, .nan => .nan
  | a, b => if a.jle b then b else a

/-- Adding the literal 1, as in `... + 1`. -/
def JsNumber.addOne : JsNumber → JsNumber
  | .fin q => .fin (q + 1)
  | x => x

/-- An integer as a JS number. -/
def jsInt (n : ℤ) : JsNumber := .fin (n : ℚ)

/-- `AudienceCode`. -/
inductive AudienceCode where
  | adult
  | youth
deriving DecidableEq

/-- `PackageDurationType` (`'single-event' | 'period'`). -/
inductive PackageDurationType where
  | singleEvent
  | period
deriving DecidableEq

/-- `PackagePaymentFrequency`. -/
inductive PackagePaymentFrequency where
  | daily
  | weekly
  | monthly
  | yearly
deriving DecidableEq

/-- `AdditionalServiceType` (`'fixed' | 'variable'`; the second constructor
is renamed because `variable` is a Lean keyword). -/
inductive AdditionalServiceType where
  | fixed
  | variableKind
deriving DecidableEq

/-- `SportPackage.status`. -/
inductive PackageStatus where
  | draft
  | published
  | archived
deriving DecidableEq

/-- `PackageGroupSchedule`. -/
structure PackageGroupSchedule where
  id : Str
  weekday : JsNumber
  time : Str
deriving DecidableEq

/-- `PackageGroup`. -/
structure PackageGroup where
  id : Str
  title : Str
  birthYearMin : JsNumber
  birthYearMax : JsNumber
  fieldId : Str
  schedules : List PackageGroupSchedule
deriving DecidableEq

/-- `PackageGalleryImage`. -/
structure PackageGalleryImage where
  id : Str
  src : Str
  caption : Str
deriving DecidableEq

/-- `PackageCategory` (the constant discriminator `kind: 'sport'` carries
no information and is not modelled). -/
structure PackageCategory where
  id : Str
  code : Str
  label : Str
  icon : Str
  isActive : Bool
  sortOrder : JsNumber
deriving DecidableEq

/-- `Company`. -/
structure Company where
  id : Str
  title : Str
  headquartersAddress : Str
  googlePlaceId : Str
  vatNumber : Str
  iban : Str
  paypalEnabled : Bool
  paypalClientId : Str
  email : Str
  consentMinors : Str
  consentAdults : Str
  consentInformationNotice : Str
  consentDataProcessing : Str
deriving DecidableEq

/-- `SportField`. -/
structure SportField where
  id : Str
  title : Str
  categoryId : Str
  description : Str
deriving DecidableEq

/-- `EnrollmentType`. -/
structure EnrollmentType where
  id : Str
  title : Str
  description : Str
deriving DecidableEq

/-- `WhatsAppAvailabilitySlot`. -/
structure WhatsAppAvailabilitySlot where
  id : Str
  weekday : JsNumber
  startTime : Str
  endTime : Str
deriving DecidableEq

/-- `WhatsAppButtonStyle`. -/
structure WhatsAppButtonStyle where
  label : Str
  backgroundColor : Str
  textColor : Str
deriving DecidableEq

/-- `WhatsAppAccount`. -/
structure WhatsAppAccount where
  id : Str
  title : Str
  phoneNumber : Str
  avatarUrl : Str
  isActive : Bool
  alwaysAvailable : Bool
  availabilitySlots : List WhatsAppAvailabilitySlot
  offlineMessage : Str
  buttonStyle : WhatsAppButtonStyle
deriving DecidableEq

/-- `AdditionalService`. -/
structure AdditionalService where
  id : Str
  title : Str
  type : AdditionalServiceType
  price : Option JsNumber
  isActive : Bool
  description : Str
deriving DecidableEq

/-- `PackageAdditionalServiceSelection`. -/
structure PackageAdditionalServiceSelection where
  serviceId : Str
  isActive : Bool
deriving DecidableEq

/-- `SportPackage`. -/
structure SportPackage where
  id : Str
  categoryId : Str
  companyId : Str
  enrollmentId : Str
  enrollmentPrice : JsNumber
  trainerIds : List JsNumber
  whatsappAccountIds : List Str
  additionalFixedServices : List PackageAdditionalServiceSelection
  additionalVariableServices : List PackageAdditionalServiceSelection
  audience : AudienceCode
  name : Str
  description : Str
  ageMin : JsNumber
  ageMax : JsNumber
  durationType : PackageDurationType
  eventDate : Str
  eventTime : Str
  periodStartDate : Str
  periodEndDate : Str
  gallery : List PackageGalleryImage
  groups : List PackageGroup
  recurringPaymentEnabled : Bool
  paymentFrequency : PackagePaymentFrequency
  priceAmount : JsNumber
  monthlyDueDay : Option JsNumber
  monthlyNextCycleOpenDay : Option JsNumber
  weeklyDueWeekday : Option JsNumber
  firstPaymentOnSite : Bool
  trainingAddress : Str
  entriesCount : Option JsNumber
  userSelectableSchedule : Bool
  featuredImage : Str
  isFeatured : Bool
  isDescriptive : Bool
  status : PackageStatus
deriving DecidableEq

/-- The full stored catalog: the seven collections owned by the store. -/
structure Catalog where
  sportCategories : List PackageCategory
  fields : List SportField
  enrollments : List EnrollmentType
  whatsappAccounts : List WhatsAppAccount
  additionalServices : List AdditionalService
  companies : List Company
  packages : List SportPackage
deriving DecidableEq

/-- Union of the error codes of all store operations (each TS operation
uses a string-literal subset of these). -/
inductive CatalogError where
  | invalid
  | duplicateCode
  | notFound
  | categoryInUse
  | fieldInUse
  | companyInUse
  | categoryNotFound
  | companyNotFound
  | invalidIban
  | invalidEmail
  | paypalClientIdRequired
  | invalidAgeRange
  | invalidDuration
  | invalidPayment
  | invalidEnrollment
  | invalidWhatsAppAccounts
  | invalidAdditionalServices
  | invalidGroups
deriving DecidableEq

/-- `SaveCategoryPayload`. -/
structure SaveCategoryPayload where
  code : Str
  label : Str
  icon : Str
  isActive : Bool
deriving DecidableEq

/-- `SaveFieldPayload`. -/
structure SaveFieldPayload where
  title : Str
  categoryId : Str
  description : Str
deriving DecidableEq

/-- `SaveEnrollmentPayload`. -/
structure SaveEnrollmentPayload where
  title : Str
  description : Str
deriving DecidableEq

/-- `SaveWhatsAppAccountPayload`. -/
structure SaveWhatsAppAccountPayload where
  title : Str
  phoneNumber : Str
  avatarUrl : Str
  isActive : Bool
  alwaysAvailable : Bool
  availabilitySlots : List WhatsAppAvailabilitySlot
  offlineMessage : Str
  buttonStyle : WhatsAppButtonStyle
deriving DecidableEq

/-- `SaveAdditionalServicePayload`. -/
structure SaveAdditionalServicePayload where
  title : Str
  type : AdditionalServiceType
  price : Option JsNumber
  isActive : Bool
  description : Str
deriving DecidableEq

/-- `SaveCompanyPayload`. -/
structure SaveCompanyPayload where
  title : Str
  headquartersAddress : Str
  googlePlaceId : Str
  vatNumber : Str
  iban : Str
  paypalEnabled : Bool
  paypalClientId : Str
  email : Str
  consentMinors : Str
  consentAdults : Str
  consentInformationNotice : Str
  consentDataProcessing : Str
deriving DecidableEq

/-- `SavePackagePayload`. -/
structure SavePackagePayload where
  name : Str
  description : Str
  categoryId : Str
  companyId : Str
  enrollmentId : Str
  enrollmentPrice : JsNumber
  trainerIds : List JsNumber
  whatsappAccountIds : List Str
  additionalFixedServices : List PackageAdditionalServiceSelection
  additionalVariableServices : List PackageAdditionalServiceSelection
  audience : AudienceCode
  ageMin : JsNumber
  ageMax : JsNumber
  durationType : PackageDurationType
  eventDate : Str
  eventTime : Str
  periodStartDate : Str
  periodEndDate : Str
  gallery : List PackageGalleryImage
  groups : List PackageGroup
  recurringPaymentEnabled : Bool
  paymentFrequency : PackagePaymentFrequency
  priceAmount : JsNumber
  monthlyDueDay : Option JsNumber
  monthlyNextCycleOpenDay : Option JsNumber
  weeklyDueWeekday : Option JsNumber
  firstPaymentOnSite : Bool
  trainingAddress : Str
  entriesCount : Option JsNumber
  userSelectableSchedule : Bool
  featuredImage : Str
  isFeatured : Bool
  isDescriptive : Bool
deriving DecidableEq

/-- The dash-character test of the dash-run-collapsing regex. -/
def dashP (c : Char) : Bool := c == dashChar

/-- Remove one leading dash, as one alternative of `/^-|-$/g`. -/
def dropLeadingDash (l : Str) : Str :=
  match l with
  | c :: rest => if c = dashChar then rest else l
  | [] => []

/-- `replace(/^-|-$/g, '')`: one dash is removed at each end. -/
def stripEdgeDashes (l : Str) : Str :=
  (dropLeadingDash ((dropLeadingDash l).reverse)).reverse

/-- `normalizeCode`: trim, lowercase, whitespace runs to `-`, drop
characters outside `[a-z0-9-]`, collapse dash runs, strip edge dashes. -/
def normalizeCode (code : Str) : Str :=
  stripEdgeDashes
    (collapseRuns dashP dashChar
      ((collapseRuns isJsWhitespace dashChar (jsToLower (jsTrim code))).filter
        (fun c => allowedCodeChars.contains c)))

/-- `normalizeIban`: `replace(/\s+/g, '')` removes every whitespace
character, then uppercase. -/
def normalizeIban (iban : Str) : Str :=
  jsToUpper (iban.filter (fun c => !(isJsWhitespace c)))

/-- `stripHtml`: strip tags, collapse whitespace runs to one space, trim. -/
def stripHtml (value : Str) : Str :=
  jsTrim (collapseRuns isJsWhitespace spaceChar (stripTagsJs value))

/-- All characters admissible in the email local part and domain
(`[^\s@]`). -/
def noWsNoAt (l : Str) : Bool := l.all (fun c => !(isJsWhitespace c) && !(c == atChar))

/-- `isValidEmail`: `/^[^\s@]+@[^\s@]+\.[^\s@]+$/` on the trimmed value;
the string splits at its only `@`, and the domain needs an interior dot. -/
def isValidEmail (value : Str) : Bool :=
  let s := jsTrim value
  let localPart := s.takeWhile (fun c => !(c == atChar))
  match s.drop localPart.length with
  | [] => false
  | _ :: domain =>
    !localPart.isEmpty && noWsNoAt localPart && !domain.isEmpty && noWsNoAt domain
      && (domain.drop 1).dropLast.contains dotChar

/-- `normalizePhoneNumber`: trim; keep the digits (`replace(/\D/g, '')`),
re-prefixing `+` when the trimmed input started with one. -/
def normalizePhoneNumber (value : Str) : Str :=
  let trimmed := jsTrim value
  if trimmed = [] then []
  else
    let startsWithPlus := trimmed.head? = some plusChar
    let digitsOnly := trimmed.filter isAsciiDigit
    if startsWithPlus then plusChar :: digitsOnly else digitsOnly

/-- `isValidPhoneNumber`: `/^\+?\d{7,15}$/`. -/
def isValidPhoneNumber (value : Str) : Bool :=
  let core :=
    match value with
    | c :: rest => if c = plusChar then rest else value
    | [] => []
  core.all isAsciiDigit && decide (7 ≤ core.length) && decide (core.length ≤ 15)

/-- One slot of `normalizeWhatsAppAvailabilitySlots` on the typed payload
shape (`fresh` injects the random id used when the slot id is blank). -/
def normalizeWhatsAppAvailabilitySlot (fresh : Str) (s : WhatsAppAvailabilitySlot) :
    WhatsAppAvailabilitySlot :=
  { id := if jsTrim s.id = [] then fresh else jsTrim s.id
    weekday := if s.weekday.isInteger then s.weekday else jsInt 1
    startTime := jsTrim s.startTime
    endTime := jsTrim s.endTime }

/-- `normalizeWhatsAppAvailabilitySlots` on the typed payload shape. -/
def normalizeWhatsAppAvailabilitySlots (fresh : Nat → Str)
    (value : List WhatsAppAvailabilitySlot) : List WhatsAppAvailabilitySlot :=
  value.enum.map (fun p => normalizeWhatsAppAvailabilitySlot (fresh p.1) p.2)

/-- `normalizeWhatsAppButtonStyle` on the typed payload shape. -/
def normalizeWhatsAppButtonStyle (value : WhatsAppButtonStyle) : WhatsAppButtonStyle :=
  { label := if jsTrim value.label = [] then "WhatsApp".toList else jsTrim value.label
    backgroundColor :=
      if jsTrim value.backgroundColor = [] then "#25D366".toList else jsTrim value.backgroundColor
    textColor := if jsTrim value.textColor = [] then "#ffffff".toList else jsTrim value.textColor }

/-- `/^\d{2}:\d{2}$/`. -/
def isTimeShape : Str → Bool
  | [h1, h2, c, m1, m2] =>
    isAsciiDigit h1 && isAsciiDigit h2 && (c == colonChar) && isAsciiDigit m1 && isAsciiDigit m2
  | _ => false

/-- `isValidWhatsAppAvailabilitySlot`. -/
def isValidWhatsAppAvailabilitySlot (slot : WhatsAppAvailabilitySlot) : Bool :=
  slot.weekday.isInteger && (jsInt 0).jle slot.weekday && slot.weekday.jle (jsInt 6)
    && isTimeShape slot.startTime && isTimeShape slot.endTime
    && strLt slot.startTime slot.endTime

/-- Uppercase ASCII letter test (`[A-Z]`). -/
def isUpperAlpha (c : Char) : Bool := upperAlphaChars.contains c

/-- `IBAN_LENGTHS`: the fixed per-country IBAN length table. -/
def IBAN_LENGTHS : List (Str × Nat) :=
  [("AD".toList, 24), ("AE".toList, 23), ("AL".toList, 28), ("AT".toList, 20),
   ("AZ".toList, 28), ("BA".toList, 20), ("BE".toList, 16), ("BG".toList, 22),
   ("BH".toList, 22), ("BR".toList, 29), ("BY".toList, 28), ("CH".toList, 21),
   ("CR".toList, 22), ("CY".toList, 28), ("CZ".toList, 24), ("DE".toList, 22),
   ("DK".toList, 18), ("DO".toList, 28), ("EE".toList, 20), ("EG".toList, 29),
   ("ES".toList, 24), ("FI".toList, 18), ("FO".toList, 18), ("FR".toList, 27),
   ("GB".toList, 22), ("GE".toList, 22), ("GI".toList, 23), ("GL".toList, 18),
   ("GR".toList, 27), ("GT".toList, 28), ("HR".toList, 21), ("HU".toList, 28),
   ("IE".toList, 22), ("IL".toList, 23), ("IQ".toList, 23), ("IS".toList, 26),
   ("IT".toList, 27), ("JO".toList, 30), ("KW".toList, 30), ("KZ".toList, 20),
   ("LB".toList, 28), ("LC".toList, 32), ("LI".toList, 21), ("LT".toList, 20),
   ("LU".toList, 20), ("LV".toList, 21), ("MC".toList, 27), ("MD".toList, 24),
   ("ME".toList, 22), ("MK".toList, 19), ("MR".toList, 27), ("MT".toList, 31),
   ("MU".toList, 30), ("NL".toList, 18), ("NO".toList, 15), ("PK".toList, 24),
   ("PL".toList, 28), ("PS".toList, 29), ("PT".toList, 25), ("QA".toList, 29),
   ("RO".toList, 24), ("RS".toList, 22), ("SA".toList, 24), ("SC".toList, 31),
   ("SD".toList, 18), ("SE".toList, 24), ("SI".toList, 19), ("SK".toList, 24),
   ("SM".toList, 27), ("ST".toList, 25), ("SV".toList, 28), ("TL".toList, 23),
   ("TN".toList, 24), ("TR".toList, 26), ("UA".toList, 29), ("VA".toList, 22),
   ("VG".toList, 24), ("XK".toList, 20)]

/-- Shape check `/^[A-Z]{2}[0-9A-Z]+$/`. -/
def ibanShapeOk : Str → Bool
  | a :: b :: rest =>
    isUpperAlpha a && isUpperAlpha b && !rest.isEmpty
      && rest.all (fun c => isAsciiDigit c || isUpperAlpha c)
  | _ => false

/-- Decimal digits of `n`, for the `n ≤ 99` arising from `String(n)` on
IBAN character codes. -/
def decDigitsLe99 (n : Nat) : List Nat := if n < 10 then [n] else [n / 10, n % 10]

/-- Digit expansion of one IBAN character: a digit stands for itself, a
letter for `charCodeAt(0) - 55` (A=10 … Z=35). -/
def ibanCharDigits (c : Char) : List Nat :=
  if isAsciiDigit c then [c.toNat - 48] else decDigitsLe99 (c.toNat - 55)

/-- One step of the incremental MOD-97 loop. -/
def mod97Step (r d : Nat) : Nat := (r * 10 + d) % 97

/-- The incremental remainder loop of `isValidIban`. -/
def ibanMod97 (l : Str) : Nat :=
  l.foldl (fun r c => (ibanCharDigits c).foldl mod97Step r) 0

/-- `isValidIban` (`expected = 0` mirrors JS falsiness of `!expected`). -/
def isValidIban (value : Str) : Bool :=
  let iban := normalizeIban value
  if ibanShapeOk iban = false then false
  else
    let country := iban.take 2
    match IBAN_LENGTHS.lookup country with
    | none => false
    | some expected =>
      if expected = 0 then false
      else if iban.length ≠ expected then false
      else
        let rearranged := iban.drop 4 ++ iban.take 4
        decide (ibanMod97 rearranged = 1)

/-- `isValidAgeRange`. -/
def isValidAgeRange (ageMin ageMax : JsNumber) : Bool :=
  ageMin.isInteger && ageMax.isInteger && (jsInt 0).jle ageMin
    && ageMin.jle ageMax && ageMax.jle (jsInt 120)

/-- The duration fields picked by `normalizePackageDuration`. -/
structure PackageDurationFields where
  durationType : PackageDurationType
  eventDate : Str
  eventTime : Str
  periodStartDate : Str
  periodEndDate : Str
deriving DecidableEq

/-- The duration projection of a package payload. -/
def durationOf (p : SavePackagePayload) : PackageDurationFields :=
  { durationType := p.durationType
    eventDate := p.eventDate
    eventTime := p.eventTime
    periodStartDate := p.periodStartDate
    periodEndDate := p.periodEndDate }

/-- `normalizePackageDuration`. -/
def normalizePackageDuration (input : PackageDurationFields) : PackageDurationFields :=
  let durationType :=
    if input.durationType = .period then PackageDurationType.period
    else PackageDurationType.singleEvent
  let eventDate := jsTrim input.eventDate
  let eventTime := jsTrim input.eventTime
  let periodStartDate := jsTrim input.periodStartDate
  let periodEndDate := jsTrim input.periodEndDate
  if durationType = .singleEvent then
    { durationType := durationType, eventDate := eventDate, eventTime := eventTime
      periodStartDate := [], periodEndDate := [] }
  else
    { durationType := durationType, eventDate := [], eventTime := []
      periodStartDate := periodStartDate, periodEndDate := periodEndDate }

/-- `isValidPackageDuration` (`<=` on the two date strings is JS string
comparison). -/
def isValidPackageDuration (input : PackageDurationFields) : Bool :=
  let normalized := normalizePackageDuration input
  if normalized.durationType = .singleEvent then
    !normalized.eventDate.isEmpty && !normalized.eventTime.isEmpty
  else
    !normalized.periodStartDate.isEmpty && !normalized.periodEndDate.isEmpty
      && strLe normalized.periodStartDate normalized.periodEndDate

/-- The payment fields picked by `normalizePackagePayment`. -/
structure PackagePaymentFields where
  recurringPaymentEnabled : Bool
  paymentFrequency : PackagePaymentFrequency
  priceAmount : JsNumber
  monthlyDueDay : Option JsNumber
  monthlyNextCycleOpenDay : Option JsNumber
  weeklyDueWeekday : Option JsNumber
  firstPaymentOnSite : Bool
deriving DecidableEq

/-- The payment projection of a package payload. -/
def paymentOf (p : SavePackagePayload) : PackagePaymentFields :=
  { recurringPaymentEnabled := p.recurringPaymentEnabled
    paymentFrequency := p.paymentFrequency
    priceAmount := p.priceAmount
    monthlyDueDay := p.monthlyDueDay
    monthlyNextCycleOpenDay := p.monthlyNextCycleOpenDay
    weeklyDueWeekday := p.weeklyDueWeekday
    firstPaymentOnSite := p.firstPaymentOnSite }

/-- `Number.isInteger(x) ? Number(x) : null` for a nullable number. -/
def jsIntegerOrNull : Option JsNumber → Option JsNumber
  | some n => if n.isInteger then some n else none
  | none => none

/-- The `allowedFrequencies` literal of `normalizePackagePayment`. -/
def allowedFrequencies : List PackagePaymentFrequency :=
  [.daily, .weekly, .monthly, .yearly]

/-- `normalizePackagePayment` (on the typed payload `Boolean(...)` of a
boolean is the identity). -/
def normalizePackagePayment (input : PackagePaymentFields) : PackagePaymentFields :=
  let recurringPaymentEnabled := input.recurringPaymentEnabled
  let paymentFrequency :=
    if allowedFrequencies.contains input.paymentFrequency then input.paymentFrequency
    else PackagePaymentFrequency.monthly
  let priceAmount := if input.priceAmount.isFinite then input.priceAmount else JsNumber.nan
  let monthlyDueDay := jsIntegerOrNull input.monthlyDueDay
  let monthlyNextCycleOpenDay := jsIntegerOrNull input.monthlyNextCycleOpenDay
  let weeklyDueWeekday := jsIntegerOrNull input.weeklyDueWeekday
  let firstPaymentOnSite := input.firstPaymentOnSite
  if recurringPaymentEnabled = false then
    { recurringPaymentEnabled := recurringPaymentEnabled
      paymentFrequency := paymentFrequency
      priceAmount := priceAmount
      monthlyDueDay := none
      monthlyNextCycleOpenDay := none
      weeklyDueWeekday := none
      firstPaymentOnSite := firstPaymentOnSite }
  else
    { recurringPaymentEnabled := recurringPaymentEnabled
      paymentFrequency := paymentFrequency
      priceAmount := priceAmount
      monthlyDueDay := if paymentFrequency = .monthly then monthlyDueDay else none
      monthlyNextCycleOpenDay := if paymentFrequency = .monthly then monthlyNextCycleOpenDay else none
      weeklyDueWeekday := if paymentFrequency = .weekly then weeklyDueWeekday else none
      firstPaymentOnSite := firstPaymentOnSite }

/-- `isValidPackagePayment`. -/
def isValidPackagePayment (input : PackagePaymentFields) : Bool :=
  let payment := normalizePackagePayment input
  if payment.priceAmount.isFinite = false ∨ payment.priceAmount.jlt (jsInt 0) = true then false
  else if payment.recurringPaymentEnabled = false then true
  else if payment.paymentFrequency = .monthly then
    match payment.monthlyDueDay, payment.monthlyNextCycleOpenDay with
    | some d, some o =>
      (jsInt 1).jle d && d.jle (jsInt 31) && (jsInt 1).jle o && o.jle (jsInt 31)
    | _, _ => false
  else if payment.paymentFrequency = .weekly then
    match payment.weeklyDueWeekday with
    | some w => (jsInt 0).jle w && w.jle (jsInt 6)
    | none => false
  else true

/-- The fields picked by `normalizePackageEntries`. -/
structure PackageEntriesFields where
  recurringPaymentEnabled : Bool
  paymentFrequency : PackagePaymentFrequency
  entriesCount : Option JsNumber
deriving DecidableEq

/-- The entries projection of a package payload. -/
def entriesOf (p : SavePackagePayload) : PackageEntriesFields :=
  { recurringPaymentEnabled := p.recurringPaymentEnabled
    paymentFrequency := p.paymentFrequency
    entriesCount := p.entriesCount }

/-- `Number.isFinite(x) ? Math.trunc(Number(x)) : null` for a nullable
number. -/
def jsFiniteTruncOrNull : Option JsNumber → Option JsNumber
  | some n => if n.isFinite then some n.trunc else none
  | none => none

/-- `normalizePackageEntries` (the source returns the single-field record
`{ entriesCount }`; here the field value itself). -/
def normalizePackageEntries (input : PackageEntriesFields) : Option JsNumber :=
  let entriesCount := jsFiniteTruncOrNull input.entriesCount
  if input.recurringPaymentEnabled = true ∧ input.paymentFrequency = .daily then none
  else entriesCount

/-- `isValidPackageEntries`. -/
def isValidPackageEntries (input : PackageEntriesFields) : Bool :=
  match normalizePackageEntries input with
  | none => input.recurringPaymentEnabled && decide (input.paymentFrequency = .daily)
  | some k =>
    if k.isInteger = false ∨ k.jle (jsInt 0) = true then false
    else if input.recurringPaymentEnabled = false then true
    else if input.paymentFrequency = .weekly then k.jle (jsInt 7)
    else if input.paymentFrequency = .monthly then k.jle (jsInt 31)
    else if input.paymentFrequency = .yearly then k.jle (jsInt 365)
    else false

/-- The enrollment fields picked by `isValidPackageEnrollment`. -/
structure PackageEnrollmentFields where
  enrollmentId : Str
  enrollmentPrice : JsNumber
deriving DecidableEq

/-- The enrollment projection of a package payload. -/
def enrollmentOf (p : SavePackagePayload) : PackageEnrollmentFields :=
  { enrollmentId := p.enrollmentId, enrollmentPrice := p.enrollmentPrice }

/-- `isValidPackageEnrollment`. -/
def isValidPackageEnrollment (input : PackageEnrollmentFields)
    (enrollments : List EnrollmentType) : Bool :=
  if jsTrim input.enrollmentId = [] then decide (enrollments.length = 0)
  else
    enrollments.any (fun item => decide (item.id = input.enrollmentId))
      && input.enrollmentPrice.isFinite && (jsInt 0).jle input.enrollmentPrice

/-- `normalizePackageTrainers` on the typed payload (`Number(item)` is the
identity on numbers). -/
def normalizePackageTrainers (value : List JsNumber) : List JsNumber :=
  dedupFirst
    ((value.filter (fun id => id.isInteger && (jsInt 0).jlt id)).map JsNumber.trunc)

/-- `normalizePackageWhatsAppAccountIds` on the typed payload. -/
def normalizePackageWhatsAppAccountIds (value : List Str) : List Str :=
  dedupFirst ((value.map jsTrim).filter (fun id => decide (0 < id.length)))

/-- The per-item step of `normalizePackageAdditionalServices` on the typed
payload shape: trim the id, drop blank ids, keep the flag. -/
def rawAdditionalSelections (value : List PackageAdditionalServiceSelection) :
    List PackageAdditionalServiceSelection :=
  value.filterMap (fun item =>
    let serviceId := jsTrim item.serviceId
    if serviceId = [] then none
    else some { serviceId := serviceId, isActive := item.isActive })

/-- `Map.set` semantics: an existing key keeps its position and takes the
new value, a new key is appended. -/
def selUpsert (m : List PackageAdditionalServiceSelection)
    (s : PackageAdditionalServiceSelection) : List PackageAdditionalServiceSelection :=
  if m.any (fun e => decide (e.serviceId = s.serviceId)) then
    m.map (fun e => if e.serviceId = s.serviceId then s else e)
  else m ++ [s]

/-- The `deduplicated` map of `normalizePackageAdditionalServices`. -/
def dedupLastByKey (l : List PackageAdditionalServiceSelection) :
    List PackageAdditionalServiceSelection :=
  l.foldl selUpsert []

/-- `normalizePackageAdditionalServices` on the typed payload shape. -/
def normalizePackageAdditionalServices (value : List PackageAdditionalServiceSelection) :
    List PackageAdditionalServiceSelection :=
  dedupLastByKey (rawAdditionalSelections value)

/-- `additionalServiceById.get(id)?.type`; the JS `Map` constructor lets a
later duplicate id overwrite an earlier one. -/
def serviceTypeAt (services : List AdditionalService) (id : Str) :
    Option AdditionalServiceType :=
  (services.reverse.find? (fun s => decide (s.id = id))).map (fun s => s.type)

/-- The two selection lists picked by `isValidPackageAdditionalServices`. -/
structure PackageAdditionalServicesFields where
  additionalFixedServices : List PackageAdditionalServiceSelection
  additionalVariableServices : List PackageAdditionalServiceSelection
deriving DecidableEq

/-- `isValidPackageAdditionalServices`. -/
def isValidPackageAdditionalServices (input : PackageAdditionalServicesFields)
    (additionalServices : List AdditionalService) : Bool :=
  let fixedSelections := normalizePackageAdditionalServices input.additionalFixedServices
  let variableSelections := normalizePackageAdditionalServices input.additionalVariableServices
  let fixedIds := fixedSelections.map (fun s => s.serviceId)
  let variableIds := variableSelections.map (fun s => s.serviceId)
  if fixedIds.any (fun id => variableIds.contains id) then false
  else if (fixedIds.all (fun id =>
      decide (serviceTypeAt additionalServices id = some .fixed))) = false then false
  else variableIds.all (fun id =>
    decide (serviceTypeAt additionalServices id = some .variableKind))

/-- `isValidPackageWhatsAppAccounts` (taking the picked id list). -/
def isValidPackageWhatsAppAccounts (whatsappAccountIds : List Str)
    (whatsappAccounts : List WhatsAppAccount) : Bool :=
  (normalizePackageWhatsAppAccountIds whatsappAccountIds).all (fun id =>
    whatsappAccounts.any (fun account => decide (account.id = id)))

/-- One item of `normalizePackageGallery` on the typed payload shape. -/
def normalizePackageGalleryItem (fresh : Str) (item : PackageGalleryImage) :
    Option PackageGalleryImage :=
  let src := jsTrim item.src
  if src = [] then none
  else some
    { id := if jsTrim item.id = [] then fresh else jsTrim item.id
      src := src
      caption := jsTrim item.caption }

/-- `normalizePackageGallery` on the typed payload shape. -/
def normalizePackageGallery (fresh : Nat → Str) (value : List PackageGalleryImage) :
    List PackageGalleryImage :=
  value.enum.filterMap (fun p => normalizePackageGalleryItem (fresh p.1) p.2)

/-- One schedule of `normalizePackageGroups` on the typed payload shape. -/
def normalizePackageGroupSchedule (fresh : Str) (schedule : PackageGroupSchedule) :
    PackageGroupSchedule :=
  { id := if jsTrim schedule.id = [] then fresh else jsTrim schedule.id
    weekday := if schedule.weekday.isFinite then schedule.weekday.trunc else jsInt 1
    time := jsTrim schedule.time }

/-- One group of `normalizePackageGroups` on the typed payload shape; the
legacy untyped fields (`weekday`, `time`, `ageMin`, `ageMax`) are absent
from the typed payload, so their `Number(...)` reads are NaN and the
legacy birth-year branch never fires. -/
def normalizePackageGroup (freshGroup : Str) (freshSchedule : Nat → Str)
    (currentYear : ℤ) (item : PackageGroup) : PackageGroup :=
  let schedules :=
    item.schedules.enum.map (fun p => normalizePackageGroupSchedule (freshSchedule p.1) p.2)
  let normalizedSchedules :=
    if schedules = [] then [{ id := freshSchedule 0, weekday := jsInt 1, time := ([] : Str) }]
    else schedules
  let birthYearMin :=
    if item.birthYearMin.isFinite then item.birthYearMin.trunc else JsNumber.nan
  let birthYearMax :=
    if item.birthYearMax.isFinite then item.birthYearMax.trunc else JsNumber.nan
  { id := if jsTrim item.id = [] then freshGroup else jsTrim item.id
    title := jsTrim item.title
    birthYearMin := if birthYearMin.isFinite then birthYearMin else jsInt (currentYear - 12)
    birthYearMax := if birthYearMax.isFinite then birthYearMax else jsInt (currentYear - 12)
    fieldId := jsTrim item.fieldId
    schedules := normalizedSchedules }

/-- `normalizePackageGroups` on the typed payload shape. -/
def normalizePackageGroups (freshGroup : Nat → Str) (freshSchedule : Nat → Nat → Str)
    (currentYear : ℤ) (value : List PackageGroup) : List PackageGroup :=
  value.enum.map (fun p =>
    normalizePackageGroup (freshGroup p.1) (freshSchedule p.1) currentYear p.2)

/-- `isValidPackageGroups`. -/
def isValidPackageGroups (groups : List PackageGroup) (fields : List SportField)
    (packageCategoryId : Str) : Bool :=
  groups.all (fun group =>
    match fields.find? (fun item => decide (item.id = group.fieldId)) with
    | none => false
    | some field =>
      !(jsTrim group.title).isEmpty && !group.fieldId.isEmpty
        && decide (field.categoryId = packageCategoryId)
        && group.birthYearMin.isInteger && group.birthYearMax.isInteger
        && (jsInt 1900).jle group.birthYearMin
        && group.birthYearMin.jle group.birthYearMax
        && group.birthYearMax.jle (jsInt 2100)
        && decide (0 < group.schedules.length)
        && group.schedules.all (fun schedule =>
            schedule.weekday.isInteger && (jsInt 0).jle schedule.weekday
              && schedule.weekday.jle (jsInt 6) && isTimeShape schedule.time))

/-- `PACKAGE_CATALOG_CHANGED_EVENT`, the single event name the store emits. -/
def PACKAGE_CATALOG_CHANGED_EVENT : Str := "pys-package-catalog-changed".toList

/-- `writeStoredCatalog`: persist the full catalog and emit the change
event (state passing: the written catalog and the emitted event list). -/
def writeStoredCatalog (value : Catalog) : Catalog × List Str :=
  (value, [PACKAGE_CATALOG_CHANGED_EVENT])

/-- Outcome of a store operation: the discriminated result, the stored
catalog after the call, and the events emitted during the call. -/
abbrev OpOut (α : Type) := Except CatalogError α × Catalog × List Str

/-- `ok` flag of a discriminated result. -/
def resOk {α : Type} : Except CatalogError α → Bool
  | .ok _ => true
  | .error _ => false

/-- `createSportCategory` (`freshId` models `nextCategoryId()`). -/
def createSportCategory (catalog : Catalog) (freshId : Str)
    (payload : SaveCategoryPayload) : OpOut PackageCategory :=
  let normalizedCode := normalizeCode payload.code
  let label := jsTrim payload.label
  let icon := jsTrim payload.icon
  if normalizedCode = [] ∨ label = [] then (.error .invalid, catalog, [])
  else if catalog.sportCategories.any (fun category => decide (category.code = normalizedCode)) then
    (.error .duplicateCode, catalog, [])
  else
    let nextSortOrder :=
      (catalog.sportCategories.foldl (fun acc category => acc.jmax category.sortOrder)
        (jsInt 0)).addOne
    let category : PackageCategory :=
      { id := freshId, code := normalizedCode, label := label, icon := icon
        isActive := payload.isActive, sortOrder := nextSortOrder }
    (.ok category,
      writeStoredCatalog
        { catalog with sportCategories := catalog.sportCategories ++ [category] })

/-- `updateSportCategory`. -/
def updateSportCategory (catalog : Catalog) (id : Str)
    (payload : SaveCategoryPayload) : OpOut PackageCategory :=
  let normalizedCode := normalizeCode payload.code
  let label := jsTrim payload.label
  let icon := jsTrim payload.icon
  if normalizedCode = [] ∨ label = [] then (.error .invalid, catalog, [])
  else
    match catalog.sportCategories.find? (fun category => decide (category.id = id)) with
    | none => (.error .notFound, catalog, [])
    | some current =>
      if catalog.sportCategories.any
          (fun category => decide (category.id ≠ id ∧ category.code = normalizedCode)) then
        (.error .duplicateCode, catalog, [])
      else
        let updatedCategory : PackageCategory :=
          { current with
            code := normalizedCode
            label := label
            icon := icon
            isActive := payload.isActive }
        (.ok updatedCategory,
          writeStoredCatalog
            { catalog with
              sportCategories := catalog.sportCategories.map
                (fun category => if category.id = id then updatedCategory else category) })

/-- `removeSportCategory`. -/
def removeSportCategory (catalog : Catalog) (id : Str) : OpOut PackageCategory :=
  match catalog.sportCategories.find? (fun category => decide (category.id = id)) with
  | none => (.error .notFound, catalog, [])
  | some target =>
    if catalog.packages.any (fun item => decide (item.categoryId = id)) then
      (.error .categoryInUse, catalog, [])
    else if catalog.fields.any (fun field => decide (field.categoryId = id)) then
      (.error .categoryInUse, catalog, [])
    else
      (.ok target,
        writeStoredCatalog
          { catalog with
            sportCategories :=
              catalog.sportCategories.filter (fun category => decide (category.id ≠ id)) })

/-- `createField` (`freshId` models `nextFieldId()`). -/
def createField (catalog : Catalog) (freshId : Str)
    (payload : SaveFieldPayload) : OpOut SportField :=
  let title := jsTrim payload.title
  let description := jsTrim payload.description
  if title = [] ∨ payload.categoryId = [] ∨ description = [] then
    (.error .invalid, catalog, [])
  else if (catalog.sportCategories.any
      (fun category => decide (category.id = payload.categoryId))) = false then
    (.error .categoryNotFound, catalog, [])
  else
    let field : SportField :=
      { id := freshId, title := title, categoryId := payload.categoryId
        description := description }
    (.ok field,
      writeStoredCatalog { catalog with fields := catalog.fields ++ [field] })

/-- `updateField`. -/
def updateField (catalog : Catalog) (id : Str)
    (payload : SaveFieldPayload) : OpOut SportField :=
  let title := jsTrim payload.title
  let description := jsTrim payload.description
  if title = [] ∨ payload.categoryId = [] ∨ description = [] then
    (.error .invalid, catalog, [])
  else
    match catalog.fields.find? (fun field => decide (field.id = id)) with
    | none => (.error .notFound, catalog, [])
    | some current =>
      if (catalog.sportCategories.any
          (fun category => decide (category.id = payload.categoryId))) = false then
        (.error .categoryNotFound, catalog, [])
      else
        let field : SportField :=
          { current with
            title := title
            categoryId := payload.categoryId
            description := description }
        (.ok field,
          writeStoredCatalog
            { catalog with
              fields := catalog.fields.map (fun item => if item.id = id then field else item) })

/-- `removeField`. -/
def removeField (catalog : Catalog) (id : Str) : OpOut SportField :=
  match catalog.fields.find? (fun field => decide (field.id = id)) with
  | none => (.error .notFound, catalog, [])
  | some current =>
    if catalog.packages.any
        (fun item => item.groups.any (fun group => decide (group.fieldId = id))) then
      (.error .fieldInUse, catalog, [])
    else
      (.ok current,
        writeStoredCatalog
          { catalog with fields := catalog.fields.filter (fun field => decide (field.id ≠ id)) })

/-- `createEnrollment` (`freshId` models `nextEnrollmentId()`). -/
def createEnrollment (catalog : Catalog) (freshId : Str)
    (payload : SaveEnrollmentPayload) : OpOut EnrollmentType :=
  let title := jsTrim payload.title
  let description := jsTrim payload.description
  if title = [] ∨ description = [] then (.error .invalid, catalog, [])
  else
    let enrollment : EnrollmentType := { id := freshId, title := title, description := description }
    (.ok enrollment,
      writeStoredCatalog { catalog with enrollments := catalog.enrollments ++ [enrollment] })

/-- `updateEnrollment`. -/
def updateEnrollment (catalog : Catalog) (id : Str)
    (payload : SaveEnrollmentPayload) : OpOut EnrollmentType :=
  let title := jsTrim payload.title
  let description := jsTrim payload.description
  if title = [] ∨ description = [] then (.error .invalid, catalog, [])
  else
    match catalog.enrollments.find? (fun item => decide (item.id = id)) with
    | none => (.error .notFound, catalog, [])
    | some current =>
      let enrollment : EnrollmentType := { current with title := title, description := description }
      (.ok enrollment,
        writeStoredCatalog
          { catalog with
            enrollments := catalog.enrollments.map
              (fun item => if item.id = id then enrollment else item) })

/-- `removeEnrollment`. -/
def removeEnrollment (catalog : Catalog) (id : Str) : OpOut EnrollmentType :=
  match catalog.enrollments.find? (fun item => decide (item.id = id)) with
  | none => (.error .notFound, catalog, [])
  | some current =>
    (.ok current,
      writeStoredCatalog
        { catalog with
          enrollments := catalog.enrollments.filter (fun item => decide (item.id ≠ id)) })

/-- `NormalizedWhatsAppAccountPayload`. -/
structure NormalizedWhatsAppAccountPayload where
  title : Str
  phoneNumber : Str
  avatarUrl : Str
  isActive : Bool
  alwaysAvailable : Bool
  availabilitySlots : List WhatsAppAvailabilitySlot
  offlineMessage : Str
  buttonStyle : WhatsAppButtonStyle
deriving DecidableEq

/-- `normalizeAndValidateWhatsAppAccountPayload` (`freshSlot` models the
random ids minted for blank slot ids). -/
def normalizeAndValidateWhatsAppAccountPayload (freshSlot : Nat → Str)
    (payload : SaveWhatsAppAccountPayload) :
    Except CatalogError NormalizedWhatsAppAccountPayload :=
  let title := jsTrim payload.title
  let phoneNumber := normalizePhoneNumber payload.phoneNumber
  let avatarUrl := jsTrim payload.avatarUrl
  let isActive := payload.isActive
  let alwaysAvailable := payload.alwaysAvailable
  let availabilitySlots := normalizeWhatsAppAvailabilitySlots freshSlot payload.availabilitySlots
  let offlineMessage := jsTrim payload.offlineMessage
  let buttonStyle := normalizeWhatsAppButtonStyle payload.buttonStyle
  if title = [] ∨ phoneNumber = [] ∨ isValidPhoneNumber phoneNumber = false
      ∨ buttonStyle.label = [] then
    .error .invalid
  else if alwaysAvailable = false ∧ availabilitySlots = [] then .error .invalid
  else if alwaysAvailable = false
      ∧ (availabilitySlots.all isValidWhatsAppAvailabilitySlot) = false then
    .error .invalid
  else
    .ok { title := title, phoneNumber := phoneNumber, avatarUrl := avatarUrl
          isActive := isActive, alwaysAvailable := alwaysAvailable
          availabilitySlots := if alwaysAvailable then [] else availabilitySlots
          offlineMessage := offlineMessage, buttonStyle := buttonStyle }

/-- `createWhatsAppAccount` (`freshId` models `nextWhatsAppAccountId()`). -/
def createWhatsAppAccount (catalog : Catalog) (freshId : Str) (freshSlot : Nat → Str)
    (payload : SaveWhatsAppAccountPayload) : OpOut WhatsAppAccount :=
  match normalizeAndValidateWhatsAppAccountPayload freshSlot payload with
  | .error e => (.error e, catalog, [])
  | .ok data =>
    let account : WhatsAppAccount :=
      { id := freshId, title := data.title, phoneNumber := data.phoneNumber
        avatarUrl := data.avatarUrl, isActive := data.isActive
        alwaysAvailable := data.alwaysAvailable, availabilitySlots := data.availabilitySlots
        offlineMessage := data.offlineMessage, buttonStyle := data.buttonStyle }
    (.ok account,
      writeStoredCatalog
        { catalog with whatsappAccounts := catalog.whatsappAccounts ++ [account] })

/-- `updateWhatsAppAccount`. -/
def updateWhatsAppAccount (catalog : Catalog) (id : Str) (freshSlot : Nat → Str)
    (payload : SaveWhatsAppAccountPayload) : OpOut WhatsAppAccount :=
  match normalizeAndValidateWhatsAppAccountPayload freshSlot payload with
  | .error e => (.error e, catalog, [])
  | .ok data =>
    match catalog.whatsappAccounts.find? (fun item => decide (item.id = id)) with
    | none => (.error .notFound, catalog, [])
    | some current =>
      let account : WhatsAppAccount :=
        { current with
          title := data.title
          phoneNumber := data.phoneNumber
          avatarUrl := data.avatarUrl
          isActive := data.isActive
          alwaysAvailable := data.alwaysAvailable
          availabilitySlots := data.availabilitySlots
          offlineMessage := data.offlineMessage
          buttonStyle := data.buttonStyle }
      (.ok account,
        writeStoredCatalog
          { catalog with
            whatsappAccounts := catalog.whatsappAccounts.map
              (fun item => if item.id = id then account else item) })

/-- `removeWhatsAppAccount`: the cascading delete; every package keeps all
its fields except that the removed id is filtered out of
`whatsappAccountIds`. -/
def removeWhatsAppAccount (catalog : Catalog) (id : Str) : OpOut WhatsAppAccount :=
  match catalog.whatsappAccounts.find? (fun item => decide (item.id = id)) with
  | none => (.error .notFound, catalog, [])
  | some current =>
    (.ok current,
      writeStoredCatalog
        { catalog with
          whatsappAccounts :=
            catalog.whatsappAccounts.filter (fun item => decide (item.id ≠ id))
          packages := catalog.packages.map (fun item =>
            { item with
              whatsappAccountIds :=
                item.whatsappAccountIds.filter (fun accountId => decide (accountId ≠ id)) }) })

/-- `NormalizedAdditionalServicePayload`. -/
structure NormalizedAdditionalServicePayload where
  title : Str
  description : Str
  type : AdditionalServiceType
  price : Option JsNumber
  isActive : Bool
deriving DecidableEq

/-- `normalizeAndValidateAdditionalServicePayload`. -/
def normalizeAndValidateAdditionalServicePayload (payload : SaveAdditionalServicePayload) :
    Except CatalogError NormalizedAdditionalServicePayload :=
  let title := jsTrim payload.title
  let description := jsTrim payload.description
  let type :=
    if payload.type = .variableKind then AdditionalServiceType.variableKind
    else AdditionalServiceType.fixed
  let parsedPrice :=
    match payload.price with
    | some n => if n.isFinite then n else JsNumber.nan
    | none => JsNumber.nan
  if title = [] ∨ description = [] then .error .invalid
  else if type = .fixed ∧ (parsedPrice.isFinite = false ∨ parsedPrice.jlt (jsInt 0) = true) then
    .error .invalid
  else
    .ok { title := title, description := description, type := type
          price := if type = .fixed then some parsedPrice else none
          isActive := payload.isActive }

/-- `createAdditionalService` (`freshId` models `nextAdditionalServiceId()`). -/
def createAdditionalService (catalog : Catalog) (freshId : Str)
    (payload : SaveAdditionalServicePayload) : OpOut AdditionalService :=
  match normalizeAndValidateAdditionalServicePayload payload with
  | .error e => (.error e, catalog, [])
  | .ok data =>
    let service : AdditionalService :=
      { id := freshId, title := data.title, type := data.type, price := data.price
        isActive := data.isActive, description := data.description }
    (.ok service,
      writeStoredCatalog
        { catalog with additionalServices := catalog.additionalServices ++ [service] })

/-- `updateAdditionalService`. -/
def updateAdditionalService (catalog : Catalog) (id : Str)
    (payload : SaveAdditionalServicePayload) : OpOut AdditionalService :=
  match normalizeAndValidateAdditionalServicePayload payload with
  | .error e => (.error e, catalog, [])
  | .ok data =>
    match catalog.additionalServices.find? (fun item => decide (item.id = id)) with
    | none => (.error .notFound, catalog, [])
    | some current =>
      let service : AdditionalService :=
        { current with
          title := data.title
          type := data.type
          price := data.price
          isActive := data.isActive
          description := data.description }
      (.ok service,
        writeStoredCatalog
          { catalog with
            additionalServices := catalog.additionalServices.map
              (fun item => if item.id = id then service else item) })

/-- `removeAdditionalService`. -/
def removeAdditionalService (catalog : Catalog) (id : Str) : OpOut AdditionalService :=
  match catalog.additionalServices.find? (fun item => decide (item.id = id)) with
  | none => (.error .notFound, catalog, [])
  | some current =>
    (.ok current,
      writeStoredCatalog
        { catalog with
          additionalServices :=
            catalog.additionalServices.filter (fun item => decide (item.id ≠ id)) })

/-- `NormalizedCompanyPayload`. -/
structure NormalizedCompanyPayload where
  title : Str
  headquartersAddress : Str
  googlePlaceId : Str
  vatNumber : Str
  iban : Str
  paypalEnabled : Bool
  paypalClientId : Str
  email : Str
  consentMinors : Str
  consentAdults : Str
  consentInformationNotice : Str
  consentDataProcessing : Str
deriving DecidableEq

/-- `normalizeAndValidateCompanyPayload`. -/
def normalizeAndValidateCompanyPayload (payload : SaveCompanyPayload) :
    Except CatalogError NormalizedCompanyPayload :=
  let normalized : NormalizedCompanyPayload :=
    { title := jsTrim payload.title
      headquartersAddress := jsTrim payload.headquartersAddress
      googlePlaceId := jsTrim payload.googlePlaceId
      vatNumber := jsTrim payload.vatNumber
      iban := normalizeIban payload.iban
      paypalEnabled := payload.paypalEnabled
      paypalClientId := jsTrim payload.paypalClientId
      email := jsTrim payload.email
      consentMinors := payload.consentMinors
      consentAdults := payload.consentAdults
      consentInformationNotice := payload.consentInformationNotice
      consentDataProcessing := payload.consentDataProcessing }
  if normalized.title = [] ∨ normalized.headquartersAddress = []
      ∨ normalized.googlePlaceId = [] ∨ normalized.vatNumber = []
      ∨ normalized.iban = [] ∨ normalized.email = []
      ∨ stripHtml normalized.consentMinors = []
      ∨ stripHtml normalized.consentAdults = []
      ∨ stripHtml normalized.consentInformationNotice = []
      ∨ stripHtml normalized.consentDataProcessing = [] then
    .error .invalid
  else if isValidIban normalized.iban = false then .error .invalidIban
  else if isValidEmail normalized.email = false then .error .invalidEmail
  else if normalized.paypalEnabled = true ∧ normalized.paypalClientId = [] then
    .error .paypalClientIdRequired
  else .ok normalized

/-- `buildCompanyFromPayload` (`freshId` models `nextCompanyId()`). -/
def buildCompanyFromPayload (freshId : Str) (input : NormalizedCompanyPayload)
    (current : Option Company) : Company :=
  { id := match current with | some c => c.id | none => freshId
    title := input.title
    headquartersAddress := input.headquartersAddress
    googlePlaceId := input.googlePlaceId
    vatNumber := input.vatNumber
    iban := input.iban
    paypalEnabled := input.paypalEnabled
    paypalClientId := if input.paypalEnabled then input.paypalClientId else []
    email := input.email
    consentMinors := input.consentMinors
    consentAdults := input.consentAdults
    consentInformationNotice := input.consentInformationNotice
    consentDataProcessing := input.consentDataProcessing }

/-- `createCompany`. -/
def createCompany (catalog : Catalog) (freshId : Str)
    (payload : SaveCompanyPayload) : OpOut Company :=
  match normalizeAndValidateCompanyPayload payload with
  | .error e => (.error e, catalog, [])
  | .ok data =>
    let item := buildCompanyFromPayload freshId data none
    (.ok item,
      writeStoredCatalog { catalog with companies := catalog.companies ++ [item] })

/-- `updateCompany`. -/
def updateCompany (catalog : Catalog) (id : Str)
    (payload : SaveCompanyPayload) : OpOut Company :=
  match normalizeAndValidateCompanyPayload payload with
  | .error e => (.error e, catalog, [])
  | .ok data =>
    match catalog.companies.find? (fun company => decide (company.id = id)) with
    | none => (.error .notFound, catalog, [])
    | some current =>
      let item := buildCompanyFromPayload [] data (some current)
      (.ok item,
        writeStoredCatalog
          { catalog with
            companies := catalog.companies.map
              (fun company => if company.id = id then item else company) })

/-- `removeCompany`. -/
def removeCompany (catalog : Catalog) (id : Str) : OpOut Company :=
  match catalog.companies.find? (fun company => decide (company.id = id)) with
  | none => (.error .notFound, catalog, [])
  | some target =>
    if catalog.packages.any (fun item => decide (item.companyId = id)) then
      (.error .companyInUse, catalog, [])
    else
      (.ok target,
        writeStoredCatalog
          { catalog with
            companies := catalog.companies.filter (fun company => decide (company.id ≠ id)) })

/-- `PreparedPackagePayload`. -/
structure PreparedPackagePayload where
  name : Str
  description : Str
  featuredImage : Str
  duration : PackageDurationFields
  gallery : List PackageGalleryImage
  groups : List PackageGroup
  payment : PackagePaymentFields
  packageEntries : Option JsNumber
  trainerIds : List JsNumber
  whatsappAccountIds : List Str
  additionalFixedServices : List PackageAdditionalServiceSelection
  additionalVariableServices : List PackageAdditionalServiceSelection
deriving DecidableEq

/-- The injected id generators a package save needs (modelling the inline
`crypto.randomUUID` calls). -/
structure PackageIdGen where
  galleryId : Nat → Str
  groupId : Nat → Str
  scheduleId : Nat → Nat → Str

/-- `preparePackagePayload`. -/
def preparePackagePayload (gen : PackageIdGen) (currentYear : ℤ)
    (payload : SavePackagePayload) : PreparedPackagePayload :=
  { name := jsTrim payload.name
    description := jsTrim payload.description
    featuredImage := jsTrim payload.featuredImage
    duration := normalizePackageDuration (durationOf payload)
    gallery := normalizePackageGallery gen.galleryId payload.gallery
    groups := normalizePackageGroups gen.groupId gen.scheduleId currentYear payload.groups
    payment := normalizePackagePayment (paymentOf payload)
    packageEntries := normalizePackageEntries (entriesOf payload)
    trainerIds := normalizePackageTrainers payload.trainerIds
    whatsappAccountIds := normalizePackageWhatsAppAccountIds payload.whatsappAccountIds
    additionalFixedServices := normalizePackageAdditionalServices payload.additionalFixedServices
    additionalVariableServices :=
      normalizePackageAdditionalServices payload.additionalVariableServices }

/-- `validatePreparedPackagePayload`. -/
def validatePreparedPackagePayload (payload : SavePackagePayload)
    (prepared : PreparedPackagePayload) (catalog : Catalog) : Option CatalogError :=
  if prepared.name = [] ∨ prepared.description = []
      ∨ payload.categoryId = [] ∨ payload.companyId = [] then
    some .invalid
  else if isValidAgeRange payload.ageMin payload.ageMax = false then some .invalidAgeRange
  else if isValidPackageDuration (durationOf payload) = false then some .invalidDuration
  else if isValidPackagePayment (paymentOf payload) = false then some .invalidPayment
  else if isValidPackageEntries (entriesOf payload) = false then some .invalidPayment
  else if (catalog.sportCategories.any
      (fun category => decide (category.id = payload.categoryId))) = false then
    some .categoryNotFound
  else if (catalog.companies.any
      (fun company => decide (company.id = payload.companyId))) = false then
    some .companyNotFound
  else if isValidPackageEnrollment (enrollmentOf payload) catalog.enrollments = false then
    some .invalidEnrollment
  else if isValidPackageWhatsAppAccounts prepared.whatsappAccountIds
      catalog.whatsappAccounts = false then
    some .invalidWhatsAppAccounts
  else if isValidPackageAdditionalServices
      { additionalFixedServices := prepared.additionalFixedServices
        additionalVariableServices := prepared.additionalVariableServices }
      catalog.additionalServices = false then
    some .invalidAdditionalServices
  else if isValidPackageGroups prepared.groups catalog.fields payload.categoryId = false then
    some .invalidGroups
  else none

/-- `buildSportPackageFromPayload`. -/
def buildSportPackageFromPayload (id : Str) (payload : SavePackagePayload)
    (prepared : PreparedPackagePayload) (current : Option SportPackage) : SportPackage :=
  { id := id
    name := prepared.name
    description := prepared.description
    enrollmentId := jsTrim payload.enrollmentId
    enrollmentPrice := payload.enrollmentPrice
    trainerIds := prepared.trainerIds
    whatsappAccountIds := prepared.whatsappAccountIds
    additionalFixedServices := prepared.additionalFixedServices
    additionalVariableServices := prepared.additionalVariableServices
    ageMin := payload.ageMin
    ageMax := payload.ageMax
    durationType := prepared.duration.durationType
    eventDate := prepared.duration.eventDate
    eventTime := prepared.duration.eventTime
    periodStartDate := prepared.duration.periodStartDate
    periodEndDate := prepared.duration.periodEndDate
    gallery := prepared.gallery
    groups := prepared.groups
    recurringPaymentEnabled := prepared.payment.recurringPaymentEnabled
    paymentFrequency := prepared.payment.paymentFrequency
    priceAmount := prepared.payment.priceAmount
    monthlyDueDay := prepared.payment.monthlyDueDay
    monthlyNextCycleOpenDay := prepared.payment.monthlyNextCycleOpenDay
    weeklyDueWeekday := prepared.payment.weeklyDueWeekday
    firstPaymentOnSite := prepared.payment.firstPaymentOnSite
    trainingAddress := jsTrim payload.trainingAddress
    entriesCount := prepared.packageEntries
    userSelectableSchedule := payload.userSelectableSchedule
    featuredImage := prepared.featuredImage
    isFeatured := payload.isFeatured
    isDescriptive := payload.isDescriptive
    categoryId := payload.categoryId
    companyId := payload.companyId
    audience := payload.audience
    status := match current with | some c => c.status | none => .draft }

/-- `createSportPackage` (`freshId` models `nextPackageId()`). -/
def createSportPackage (catalog : Catalog) (freshId : Str) (gen : PackageIdGen)
    (currentYear : ℤ) (payload : SavePackagePayload) : OpOut SportPackage :=
  let prepared := preparePackagePayload gen currentYear payload
  match validatePreparedPackagePayload payload prepared catalog with
  | some e => (.error e, catalog, [])
  | none =>
    let item := buildSportPackageFromPayload freshId payload prepared none
    (.ok item,
      writeStoredCatalog { catalog with packages := catalog.packages ++ [item] })

/-- `updateSportPackage`. -/
def updateSportPackage (catalog : Catalog) (id : Str) (gen : PackageIdGen)
    (currentYear : ℤ) (payload : SavePackagePayload) : OpOut SportPackage :=
  let prepared := preparePackagePayload gen currentYear payload
  match validatePreparedPackagePayload payload prepared catalog with
  | some e => (.error e, catalog, [])
  | none =>
    match catalog.packages.find? (fun item => decide (item.id = id)) with
    | none => (.error .notFound, catalog, [])
    | some current =>
      let item := buildSportPackageFromPayload id payload prepared (some current)
      (.ok item,
        writeStoredCatalog
          { catalog with
            packages := catalog.packages.map
              (fun existing => if existing.id = id then item else existing) })

/-- `removeSportPackage`. -/
def removeSportPackage (catalog : Catalog) (id : Str) : OpOut SportPackage :=
  match catalog.packages.find? (fun item => decide (item.id = id)) with
  | none => (.error .notFound, catalog, [])
  | some target =>
    (.ok target,
      writeStoredCatalog
        { catalog with packages := catalog.packages.filter (fun item => decide (item.id ≠ id)) })

/-- The weekday values of `WEEK_DAYS` in UI order (Monday first, Sunday
last); `WEEKDAY_SORT_ORDER` maps each value to its index here. -/
def WEEK_DAYS_VALUES : List JsNumber :=
  [jsInt 1, jsInt 2, jsInt 3, jsInt 4, jsInt 5, jsInt 6, jsInt 0]

/-- `WEEKDAY_SORT_ORDER.get(w) ?? 99`. -/
def weekdaySortKey (w : JsNumber) : Nat :=
  (WEEK_DAYS_VALUES.findIdx? (fun v => decide (v = w))).getD 99

/-- Comparator relation of the weekday sort (`sort` by ascending
`WEEKDAY_SORT_ORDER` key; `insertionSort` below is stable, like JS
`Array.prototype.sort`). -/
def WeekdayKeyLe (a b : JsNumber) : Prop := weekdaySortKey a ≤ weekdaySortKey b

/-- Strict version of the weekday key comparison. -/
def WeekdayKeyLt (a b : JsNumber) : Prop := weekdaySortKey a < weekdaySortKey b

instance : DecidableRel WeekdayKeyLe :=
  fun a b => inferInstanceAs (Decidable (weekdaySortKey a ≤ weekdaySortKey b))

instance : DecidableRel WeekdayKeyLt :=
  fun a b => inferInstanceAs (Decidable (weekdaySortKey a < weekdaySortKey b))

instance : IsTotal JsNumber WeekdayKeyLe := ⟨fun a b => Nat.le_total _ _⟩

instance : IsTrans JsNumber WeekdayKeyLe := ⟨fun _ _ _ h h2 => Nat.le_trans h h2⟩

instance : IsAntisymm JsNumber WeekdayKeyLt :=
  ⟨fun a b h h2 => absurd h (Nat.not_lt.mpr (Nat.le_of_lt h2))⟩

/-- The lexicographic string order as a relation (the effective order of
`timeA.localeCompare(timeB)` on the time strings). -/
def StrLe (a b : Str) : Prop := strLe a b = true

instance : DecidableRel StrLe :=
  fun a b => inferInstanceAs (Decidable (strLe a b = true))

/-- The comparator of the by-time entry sort: compare first components. -/
def EntryLe (a b : Str × List JsNumber) : Prop := StrLe a.1 b.1

instance : DecidableRel EntryLe := fun a b => inferInstanceAs (Decidable (StrLe a.1 b.1))

/-- One `grouped.get(time) ?? [] / push / set` step: an existing time key
keeps its position and gains the weekday at the end of its list, a new
time key is appended. -/
def timeUpsert (m : List (Str × List JsNumber)) (t : Str) (w : JsNumber) :
    List (Str × List JsNumber) :=
  if m.any (fun e => decide (e.1 = t)) then
    m.map (fun e => if e.1 = t then (e.1, e.2 ++ [w]) else e)
  else m ++ [(t, [w])]

/-- The `grouped` map of `formatGroupSchedules`, as an insertion-ordered
association list. -/
def groupByTime (schedules : List PackageGroupSchedule) : List (Str × List JsNumber) :=
  schedules.foldl (fun m s => timeUpsert m s.time s.weekday) []

/-- The `', '` separator of `Array.prototype.join(', ')`. -/
def commaSpace : Str := ", ".toList

/-- `values.join(sep)`. -/
def joinListWithSep (sep : Str) : List Str → Str
  | [] => []
  | [x] => x
  | x :: xs => x ++ sep ++ joinListWithSep sep xs

/-- `joinWithConjunction`. -/
def joinWithConjunction (values : List Str) (conjunction : Str) : Str :=
  if values.length ≤ 1 then values.headD []
  else if values.length = 2 then
    values.headD [] ++ [spaceChar] ++ conjunction ++ [spaceChar] ++ values.getLastD []
  else
    joinListWithSep commaSpace values.dropLast ++ [spaceChar] ++ conjunction
      ++ [spaceChar] ++ values.getLastD []

/-- `formatHour`. -/
def formatHour (value : Str) : Str :=
  match splitOnChar colonChar value with
  | hours :: minutes :: _ =>
    if hours = [] ∨ minutes = [] then value
    else padStart2Zero hours ++ [dotChar] ++ padStart2Zero minutes
  | _ => value

/-- `formatGroupSchedules` of PackagesPage. `dayLabel` models the composite
`weekdayLabelByValue.get(day) ?? String(day)` built from the translation
function, and `conjunction` and `atLabel` the two localized words; all
three are out-of-scope i18n collaborators, injected as parameters. -/
def formatGroupSchedules (dayLabel : JsNumber → Str) (conjunction : Str) (atLabel : Str)
    (schedules : List PackageGroupSchedule) : List Str :=
  let grouped := groupByTime schedules
  let entries := List.insertionSort EntryLe grouped
  entries.map (fun e =>
    let sortedDays := List.insertionSort WeekdayKeyLe (dedupFirst e.2)
    let dayLabels := sortedDays.map dayLabel
    joinWithConjunction dayLabels conjunction ++ [spaceChar] ++ atLabel ++ [spaceChar]
      ++ formatHour e.1)

/-- The English weekday labels of the UI translation table. -/
def ENGLISH_WEEKDAY_LABELS : List (JsNumber × Str) :=
  [(jsInt 1, "Monday".toList), (jsInt 2, "Tuesday".toList), (jsInt 3, "Wednesday".toList),
   (jsInt 4, "Thursday".toList), (jsInt 5, "Friday".toList), (jsInt 6, "Saturday".toList),
   (jsInt 0, "Sunday".toList)]

/-- `String(day)` for the values the fallback can meet: integers render in
decimal; a non-integral rational has no faithful float rendering and gets
a placeholder (no theorem depends on that branch). -/
def jsNumberLabelFallback (w : JsNumber) : Str :=
  match w with
  | .nan => "NaN".toList
  | .posInf => "Infinity".toList
  | .negInf => "-Infinity".toList
  | .fin q =>
    if q.den = 1 then
      (if q.num < 0 then dashChar :: Nat.toDigits 10 q.num.natAbs
       else Nat.toDigits 10 q.num.natAbs)
    else "?".toList

/-- English instantiation of `day => weekdayLabelByValue.get(day) ?? String(day)`. -/
def engWeekdayLabel (w : JsNumber) : Str :=
  (ENGLISH_WEEKDAY_LABELS.lookup w).getD (jsNumberLabelFallback w)

/-- The (time, weekday) projection of a schedule list: the data the spec
says the display is a set-function of. -/
def schedPairs (schedules : List PackageGroupSchedule) : List (Str × JsNumber) :=
  schedules.map (fun s => (s.time, s.weekday))

/-- A weekday in the valid range: an integer between 0 and 6. -/
def validWeekday : JsNumber → Prop
  | .fin q => q.den = 1 ∧ 0 ≤ q.num ∧ q.num ≤ 6
  | _ => False

instance : DecidablePred validWeekday := fun w =>
  match w with
  | .nan => isFalse (fun h => h)
  | .posInf => isFalse (fun h => h)
  | .negInf => isFalse (fun h => h)
  | .fin q => inferInstanceAs (Decidable (q.den = 1 ∧ 0 ≤ q.num ∧ q.num ≤ 6))

/-- Spec-side value of the rearranged, letter-expanded decimal numeral of
an IBAN. -/
def ibanNumeral (l : Str) : Nat :=
  l.foldl (fun acc c => (ibanCharDigits c).foldl (fun x d => x * 10 + d) acc) 0

/-- `isValidIban` as the specification words it: normalize, match
`[A-Z]{2}[0-9A-Z]+`, check the per-country length (absent country
rejected), move the first four characters to the end, expand letters to
two-digit ordinals and require the numeral to be 1 mod 97. -/
def isValidIbanSpec (value : Str) : Bool :=
  let iban := normalizeIban value
  if ibanShapeOk iban = false then false
  else
    match IBAN_LENGTHS.lookup (iban.take 2) with
    | none => false
    | some expected =>
      decide (iban.length = expected)
        && decide (ibanNumeral (iban.drop 4 ++ iban.take 4) % 97 = 1)

/-- A nullable number that is an integer day in 1..31 (claim C4 reading of
"in 1-31" for a due day). -/
def dueDayIn1to31 (x : Option JsNumber) : Prop :=
  ∃ k : ℤ, x = some (jsInt k) ∧ 1 ≤ k ∧ k ≤ 31

/-- A nullable number that is an integer weekday in 0..6. -/
def weekdayIn0to6 (x : Option JsNumber) : Prop :=
  ∃ k : ℤ, x = some (jsInt k) ∧ 0 ≤ k ∧ k ≤ 6

/-- The payment acceptance condition as claim C4 words it. -/
def paymentAcceptedSpec (p : PackagePaymentFields) : Prop :=
  (∃ q : ℚ, p.priceAmount = .fin q ∧ 0 ≤ q)
    ∧ (p.recurringPaymentEnabled = true →
        (p.paymentFrequency = .monthly →
          dueDayIn1to31 p.monthlyDueDay ∧ dueDayIn1to31 p.monthlyNextCycleOpenDay)
          ∧ (p.paymentFrequency = .weekly → weekdayIn0to6 p.weeklyDueWeekday))

/-- The per-frequency cap on a stored entries count, as claim C5 words it:
unbounded above for a one-off price, 7 weekly, 31 monthly, 365 yearly. -/
def entriesCapSpec (p : PackageEntriesFields) (k : ℤ) : Prop :=
  (p.recurringPaymentEnabled = false)
    ∨ (p.recurringPaymentEnabled = true ∧ p.paymentFrequency = .weekly ∧ k ≤ 7)
    ∨ (p.recurringPaymentEnabled = true ∧ p.paymentFrequency = .monthly ∧ k ≤ 31)
    ∨ (p.recurringPaymentEnabled = true ∧ p.paymentFrequency = .yearly ∧ k ≤ 365)

/-- The enrollment acceptance condition as the code implements it (the
amended claim C7): a blank id is accepted exactly when no enrollment type
exists; a set id must resolve and come with a finite price at least 0. -/
def enrollmentAcceptedSpec (input : PackageEnrollmentFields)
    (enrollments : List EnrollmentType) : Prop :=
  if jsTrim input.enrollmentId = [] then enrollments = []
  else (∃ e ∈ enrollments, e.id = input.enrollmentId)
    ∧ input.enrollmentPrice.isFinite = true ∧ (jsInt 0).jle input.enrollmentPrice = true

/-- A successful association-list lookup returns a member pair. -/
theorem lookup_mem {α β : Type} [BEq α] [LawfulBEq α] {l : List (α × β)} {k : α} {v : β}
    (h : l.lookup k = some v) : (k, v) ∈ l := by
  induction l with
  | nil => simp [List.lookup] at h
  | cons p t ih =>
    obtain ⟨a, b⟩ := p
    rw [List.lookup] at h
    split at h
    · next heq =>
      have ha : k = a := by simpa using heq
      have hb : b = v := by simpa using h
      subst ha
      subst hb
      exact List.mem_cons_self _ _
    · exact List.mem_cons_of_mem _ (ih h)

/-- No value of the lower-to-upper case table is again a key of it. -/
theorem lowerUpper_snd_fixed : ∀ p ∈ lowerUpperPairs, lowerUpperPairs.lookup p.2 = none := by
  decide

/-- Values of the lower-to-upper case table are not whitespace. -/
theorem lowerUpper_snd_not_ws : ∀ p ∈ lowerUpperPairs, isJsWhitespace p.2 = false := by
  decide

/-- Uppercasing a character twice equals uppercasing it once. -/
theorem toUpperChar_idem (c : Char) : toUpperChar (toUpperChar c) = toUpperChar c := by
  unfold toUpperChar
  cases h : lowerUpperPairs.lookup c with
  | none => simp [h]
  | some u =>
    have hfix : lowerUpperPairs.lookup u = none := lowerUpper_snd_fixed (c, u) (lookup_mem h)
    simp [h, hfix]

/-- Uppercasing keeps a character non-whitespace. -/
theorem toUpperChar_not_ws {c : Char} (h : isJsWhitespace c = false) :
    isJsWhitespace (toUpperChar c) = false := by
  unfold toUpperChar
  cases hl : lowerUpperPairs.lookup c with
  | none => simpa using h
  | some u =>
    have hws : isJsWhitespace u = false := lowerUpper_snd_not_ws (c, u) (lookup_mem hl)
    simpa using hws

/-- `toUpperCase` is idempotent. -/
theorem jsToUpper_idem (l : Str) : jsToUpper (jsToUpper l) = jsToUpper l := by
  unfold jsToUpper
  rw [List.map_map]
  exact List.map_congr_left (fun c _ => toUpperChar_idem c)

/-- `normalizeIban` is idempotent. -/
theorem normalizeIban_idem (l : Str) : normalizeIban (normalizeIban l) = normalizeIban l := by
  unfold normalizeIban
  have hall : ∀ c ∈ jsToUpper (l.filter (fun c => !(isJsWhitespace c))),
      (!(isJsWhitespace c)) = true := by
    intro c hc
    obtain ⟨d, hd, rfl⟩ := List.mem_map.mp hc
    have hdw := (List.mem_filter.mp hd).2
    simpa using toUpperChar_not_ws (by simpa using hdw)
  rw [List.filter_eq_self.mpr hall]
  exact jsToUpper_idem _

/-- Dropping leading whitespace twice equals dropping it once. -/
theorem trimLeft_idem (l : Str) : trimLeft (trimLeft l) = trimLeft l := by
  induction l with
  | nil => rfl
  | cons c t ih =>
    by_cases h : isJsWhitespace c
    · simpa [trimLeft, List.dropWhile_cons, h] using ih
    · simp [trimLeft, List.dropWhile_cons, h]

/-- The head of a left-trimmed string is not whitespace. -/
theorem trimLeft_head (l : Str) :
    ∀ c, (trimLeft l).head? = some c → isJsWhitespace c = false := by
  induction l with
  | nil => intro c h; simp [trimLeft] at h
  | cons d t ih =>
    intro c h
    by_cases hd : isJsWhitespace d
    · exact ih c (by simpa [trimLeft, List.dropWhile_cons, hd] using h)
    · rw [trimLeft, List.dropWhile_cons] at h
      simp [hd] at h
      subst h
      simpa using hd

/-- A string whose head is not whitespace is unchanged by `trimLeft`. -/
theorem trimLeft_eq_self_of_head (l : Str)
    (h : ∀ c, l.head? = some c → isJsWhitespace c = false) : trimLeft l = l := by
  cases l with
  | nil => rfl
  | cons c t =>
    have := h c (by simp)
    simp [trimLeft, List.dropWhile_cons, this]

/-- Dropping trailing whitespace twice equals dropping it once. -/
theorem trimRight_idem (l : Str) : trimRight (trimRight l) = trimRight l := by
  induction l with
  | nil => rfl
  | cons c t ih =>
    rw [trimRight]
    cases h : trimRight t with
    | nil =>
      by_cases hc : isJsWhitespace c
      · simp [hc, trimRight]
      · simp [hc, trimRight]
    | cons x xs =>
      rw [h] at ih
      rw [trimRight, ih]

/-- The head of a right-trimmed string is the head of the string. -/
theorem trimRight_head (l : Str) :
    ∀ c, (trimRight l).head? = some c → l.head? = some c := by
  induction l with
  | nil => intro c h; simp [trimRight] at h
  | cons d t _ =>
    intro c h
    rw [trimRight] at h
    cases ht : trimRight t with
    | nil =>
      rw [ht] at h
      by_cases hd : isJsWhitespace d
      · simp [hd] at h
      · simp [hd] at h
        simp [h]
    | cons x xs =>
      rw [ht] at h
      simp at h
      simp [h]

/-- `trimRight` yields a sublist. -/
theorem trimRight_sublist (l : Str) : (trimRight l).Sublist l := by
  induction l with
  | nil => simp [trimRight]
  | cons c t ih =>
    rw [trimRight]
    cases h : trimRight t with
    | nil =>
      by_cases hc : isJsWhitespace c
      · simp [hc]
      · simp [hc]
    | cons x xs =>
      rw [h] at ih
      exact ih.cons₂ c

/-- `trim` is idempotent. -/
theorem jsTrim_idem (l : Str) : jsTrim (jsTrim l) = jsTrim l := by
  unfold jsTrim
  have hleft : trimLeft (trimRight (trimLeft l)) = trimRight (trimLeft l) := by
    apply trimLeft_eq_self_of_head
    intro c hc
    exact trimLeft_head l c (trimRight_head _ c hc)
  rw [hleft, trimRight_idem]

/-- A string with no whitespace character is unchanged by `trimRight`. -/
theorem trimRight_eq_self_of_all (l : Str)
    (h : ∀ c ∈ l, isJsWhitespace c = false) : trimRight l = l := by
  induction l with
  | nil => rfl
  | cons c t ih =>
    have ht : trimRight t = t := ih (fun d hd => h d (List.mem_cons_of_mem _ hd))
    rw [trimRight, ht]
    cases t with
    | nil => simp [h c (List.mem_cons_self _ _)]
    | cons x xs => rfl

/-- A string with no whitespace character is unchanged by `trim`. -/
theorem jsTrim_eq_self_of_all (l : Str)
    (h : ∀ c ∈ l, isJsWhitespace c = false) : jsTrim l = l := by
  unfold jsTrim
  have hleft : trimLeft l = l := by
    cases l with
    | nil => rfl
    | cons c t => simp [trimLeft, List.dropWhile_cons, h c (List.mem_cons_self _ _)]
  rw [hleft, trimRight_eq_self_of_all l h]

/-- Characters of a trimmed string come from the string. -/
theorem jsTrim_mem {c : Char} {l : Str} (h : c ∈ jsTrim l) : c ∈ l := by
  unfold jsTrim at h
  have h1 := (trimRight_sublist (trimLeft l)).mem h
  exact (List.dropWhile_sublist _).mem h1

/-- No two adjacent characters both satisfy `p`. -/
def noPP (p : Char → Bool) (a b : Char) : Prop := ¬(p a = true ∧ p b = true)

/-- Characters of a collapsed string come from the string or are the
replacement character. -/
theorem collapseRunsAux_mem {p : Char → Bool} {rep : Char} {l : Str} {c : Char} :
    ∀ {b : Bool}, c ∈ collapseRunsAux p rep b l → c ∈ l ∨ c = rep := by
  induction l with
  | nil => intro b h; simp [collapseRunsAux] at h
  | cons d t ih =>
    intro b h
    rw [collapseRunsAux] at h
    by_cases hd : p d
    · simp only [hd, if_true] at h
      have h2 : c ∈ collapseRunsAux p rep true t ∨ c = rep := by
        cases b with
        | true => exact Or.inl (by simpa using h)
        | false =>
          rcases List.mem_cons.mp (by simpa using h) with h3 | h3
          · exact Or.inr h3
          · exact Or.inl h3
      rcases h2 with h2 | h2
      · rcases ih h2 with h3 | h3
        · exact Or.inl (List.mem_cons_of_mem _ h3)
        · exact Or.inr h3
      · exact Or.inr h2
    · simp only [hd] at h
      rcases List.mem_cons.mp (by simpa using h) with h3 | h3
      · exact Or.inl (by simp [h3])
      · rcases ih h3 with h4 | h4
        · exact Or.inl (List.mem_cons_of_mem _ h4)
        · exact Or.inr h4

/-- A string with no `p`-character is unchanged by run collapsing. -/
theorem collapseRunsAux_eq_self {p : Char → Bool} {rep : Char} {l : Str}
    (h : ∀ c ∈ l, p c = false) (b : Bool) : collapseRunsAux p rep b l = l := by
  induction l generalizing b with
  | nil => rfl
  | cons d t ih =>
    have hd := h d (List.mem_cons_self _ _)
    rw [collapseRunsAux]
    simp only [hd]
    simp only [Bool.false_eq_true, if_false]
    rw [ih (fun c hc => h c (List.mem_cons_of_mem _ hc)) false]

/-- In-run collapsing starts with a non-`p` character. -/
theorem collapseRunsAux_head_true {p : Char → Bool} {rep : Char} (l : Str) :
    ∀ c, (collapseRunsAux p rep true l).head? = some c → p c = false := by
  induction l with
  | nil => intro c h; simp [collapseRunsAux] at h
  | cons d t ih =>
    intro c h
    rw [collapseRunsAux] at h
    by_cases hd : p d
    · simp only [hd, if_true] at h
      exact ih c (by simpa using h)
    · simp only [hd] at h
      simp at h
      rw [← h]
      simpa using hd

/-- A collapsed string never has two adjacent `p`-characters. -/
theorem collapseRunsAux_chain {p : Char → Bool} {rep : Char} (l : Str) :
    ∀ b, List.Chain' (noPP p) (collapseRunsAux p rep b l) := by
  induction l with
  | nil => intro b; simp [collapseRunsAux]
  | cons d t ih =>
    intro b
    rw [collapseRunsAux]
    by_cases hd : p d
    · simp only [hd, if_true]
      cases b with
      | true => simpa using ih true
      | false =>
        simp only [Bool.false_eq_true, if_false]
        refine List.chain'_cons'.mpr ⟨?_, ih true⟩
        intro y hy
        have := collapseRunsAux_head_true t y hy
        exact fun hc => by simp [this] at hc
    · simp only [hd]
      simp only [Bool.false_eq_true, if_false]
      refine List.chain'_cons'.mpr ⟨?_, ih false⟩
      intro y _
      exact fun hc => by simp [hd] at hc

/-- Collapsing is the identity on a string with no two adjacent
`p`-characters, when every `p`-character is the replacement itself and,
in-run, the head is not a `p`-character. -/
theorem collapseRunsAux_eq_self_of_chain {p : Char → Bool} {rep : Char}
    (hrep : ∀ c, p c = true → c = rep) :
    ∀ (l : Str) (b : Bool), (b = true → ∀ c, l.head? = some c → p c = false) →
      List.Chain' (noPP p) l → collapseRunsAux p rep b l = l := by
  intro l
  induction l with
  | nil => intro b _ _; rfl
  | cons d t ih =>
    intro b hb hchain
    rw [collapseRunsAux]
    by_cases hd : p d
    · cases b with
      | true =>
        have := hb rfl d (by simp)
        simp [this] at hd
      | false =>
        simp only [hd, if_true, Bool.false_eq_true, if_false]
        have hhead := (List.chain'_cons'.mp hchain).1
        have htail : collapseRunsAux p rep true t = t := by
          apply ih true ?_ hchain.tail
          intro _ c hc
          by_contra hpc
          exact hhead c hc ⟨hd, by simpa using hpc⟩
        rw [htail, hrep d hd]
    · simp only [hd, Bool.false_eq_true, if_false]
      rw [ih false (by simp) hchain.tail]

/-- `dropLeadingDash` returns the string or its tail. -/
theorem dropLeadingDash_eq_or (l : Str) :
    dropLeadingDash l = l ∨ dropLeadingDash l = l.tail := by
  cases l with
  | nil => exact Or.inl rfl
  | cons c t =>
    by_cases h : c = dashChar
    · exact Or.inr (by simp [dropLeadingDash, h])
    · exact Or.inl (by simp [dropLeadingDash, h])

/-- Characters survive `dropLeadingDash` only from the string. -/
theorem dropLeadingDash_mem {c : Char} {l : Str} (h : c ∈ dropLeadingDash l) : c ∈ l := by
  rcases dropLeadingDash_eq_or l with he | he
  · rwa [he] at h
  · rw [he] at h
    exact (List.tail_sublist l).mem h

/-- `dropLeadingDash` preserves dash-run freedom. -/
theorem dropLeadingDash_chain {l : Str} (h : List.Chain' (noPP dashP) l) :
    List.Chain' (noPP dashP) (dropLeadingDash l) := by
  rcases dropLeadingDash_eq_or l with he | he <;> rw [he]
  · exact h
  · exact h.tail

/-- On a dash-run-free string, `dropLeadingDash` leaves no leading dash. -/
theorem dropLeadingDash_head {l : Str} (h : List.Chain' (noPP dashP) l) :
    ∀ c, (dropLeadingDash l).head? = some c → dashP c = false := by
  intro c hc
  cases l with
  | nil => simp [dropLeadingDash] at hc
  | cons c0 t =>
    by_cases h0 : c0 = dashChar
    · rw [dropLeadingDash] at hc
      simp only [h0, if_true] at hc
      have hlink := (List.chain'_cons'.mp h).1
      by_contra hcd
      refine hlink c ?_ ⟨by simp [dashP, h0], by simpa using hcd⟩
      subst h0
      exact hc
    · rw [dropLeadingDash] at hc
      simp only [h0, if_false] at hc
      simp at hc
      rw [← hc]
      simp [dashP, h0]

/-- A string without a leading dash is unchanged by `dropLeadingDash`. -/
theorem dropLeadingDash_eq_self {l : Str}
    (h : ∀ c, l.head? = some c → dashP c = false) : dropLeadingDash l = l := by
  cases l with
  | nil => rfl
  | cons c t =>
    have := h c (by simp)
    simp [dashP] at this
    simp [dropLeadingDash, this]

/-- Adjacent-pair freedom transfers to the reversed string. -/
theorem chain_noPP_reverse {p : Char → Bool} {l : Str}
    (h : List.Chain' (noPP p) l) : List.Chain' (noPP p) l.reverse := by
  rw [List.chain'_reverse]
  exact h.imp (fun a b hab => fun hc => hab ⟨hc.2, hc.1⟩)

/-- The last element of a nonempty tail is the last element. -/
theorem getLast?_tail_ne {α : Type} (l : List α) (h : l.tail ≠ []) :
    l.tail.getLast? = l.getLast? := by
  cases l with
  | nil => simp at h
  | cons a t =>
    cases t with
    | nil => simp at h
    | cons b t2 => simp

/-- Characters survive `stripEdgeDashes` only from the string. -/
theorem stripEdgeDashes_mem {c : Char} {l : Str} (h : c ∈ stripEdgeDashes l) : c ∈ l := by
  unfold stripEdgeDashes at h
  rw [List.mem_reverse] at h
  have h1 := dropLeadingDash_mem h
  rw [List.mem_reverse] at h1
  exact dropLeadingDash_mem h1

/-- `stripEdgeDashes` preserves dash-run freedom. -/
theorem stripEdgeDashes_chain {l : Str} (h : List.Chain' (noPP dashP) l) :
    List.Chain' (noPP dashP) (stripEdgeDashes l) := by
  unfold stripEdgeDashes
  exact chain_noPP_reverse (dropLeadingDash_chain (chain_noPP_reverse (dropLeadingDash_chain h)))

/-- On a dash-run-free string, the stripped string has no trailing dash. -/
theorem stripEdgeDashes_getLast {l : Str} (h : List.Chain' (noPP dashP) l) :
    ∀ c, (stripEdgeDashes l).getLast? = some c → dashP c = false := by
  intro c hc
  unfold stripEdgeDashes at hc
  rw [List.getLast?_eq_head?_reverse, List.reverse_reverse] at hc
  exact dropLeadingDash_head (chain_noPP_reverse (dropLeadingDash_chain h)) c hc

/-- On a dash-run-free string, the stripped string has no leading dash. -/
theorem stripEdgeDashes_head {l : Str} (h : List.Chain' (noPP dashP) l) :
    ∀ c, (stripEdgeDashes l).head? = some c → dashP c = false := by
  intro c hc
  unfold stripEdgeDashes at hc
  rw [List.head?_reverse] at hc
  rcases dropLeadingDash_eq_or ((dropLeadingDash l).reverse) with he | he
  · rw [he, List.getLast?_eq_head?_reverse, List.reverse_reverse] at hc
    exact dropLeadingDash_head h c hc
  · rw [he] at hc
    by_cases hne : ((dropLeadingDash l).reverse).tail = []
    · rw [hne] at hc
      simp at hc
    · rw [getLast?_tail_ne _ hne, List.getLast?_eq_head?_reverse, List.reverse_reverse] at hc
      exact dropLeadingDash_head h c hc

/-- A string with neither a leading nor a trailing dash is unchanged by
`stripEdgeDashes`. -/
theorem stripEdgeDashes_eq_self {l : Str}
    (hh : ∀ c, l.head? = some c → dashP c = false)
    (hl : ∀ c, l.getLast? = some c → dashP c = false) :
    stripEdgeDashes l = l := by
  unfold stripEdgeDashes
  rw [dropLeadingDash_eq_self hh]
  rw [dropLeadingDash_eq_self ?_, List.reverse_reverse]
  intro c hc
  rw [List.head?_reverse] at hc
  exact hl c hc

/-- Slug characters are not whitespace. -/
theorem allowed_not_ws : ∀ c ∈ allowedCodeChars, isJsWhitespace c = false := by decide

/-- Slug characters are fixed by lowercasing. -/
theorem allowed_toLower : ∀ c ∈ allowedCodeChars, toLowerChar c = c := by decide

/-- The dash is a slug character. -/
theorem dash_mem_allowed : dashChar ∈ allowedCodeChars := by decide

/-- `normalizeCode` is the identity on the edge-stripped form of any
dash-run-free string of slug characters. -/
theorem normalizeCode_eq_self_of (l : Str) (hchain : List.Chain' (noPP dashP) l)
    (hall : ∀ c ∈ l, c ∈ allowedCodeChars) :
    normalizeCode (stripEdgeDashes l) = stripEdgeDashes l := by
  have hmem : ∀ c ∈ stripEdgeDashes l, c ∈ allowedCodeChars :=
    fun c hc => hall c (stripEdgeDashes_mem hc)
  have hnotws : ∀ c ∈ stripEdgeDashes l, isJsWhitespace c = false :=
    fun c hc => allowed_not_ws c (hmem c hc)
  have hlower : ∀ c ∈ stripEdgeDashes l, toLowerChar c = c :=
    fun c hc => allowed_toLower c (hmem c hc)
  have hchainr : List.Chain' (noPP dashP) (stripEdgeDashes l) := stripEdgeDashes_chain hchain
  unfold normalizeCode
  rw [jsTrim_eq_self_of_all _ hnotws]
  unfold jsToLower
  rw [List.map_congr_left hlower, List.map_id']
  unfold collapseRuns
  rw [collapseRunsAux_eq_self hnotws false]
  rw [List.filter_eq_self.mpr (fun c hc => by simpa [List.elem_iff] using hmem c hc)]
  rw [collapseRunsAux_eq_self_of_chain (fun c hc => by simpa [dashP] using hc)
    (stripEdgeDashes l) false (by simp) hchainr]
  exact stripEdgeDashes_eq_self (stripEdgeDashes_head hchain) (stripEdgeDashes_getLast hchain)

/-- `normalizeCode` is idempotent. -/
theorem normalizeCode_idem (code : Str) :
    normalizeCode (normalizeCode code) = normalizeCode code := by
  have hchain : List.Chain' (noPP dashP)
      (collapseRuns dashP dashChar
        ((collapseRuns isJsWhitespace dashChar (jsToLower (jsTrim code))).filter
          (fun c => allowedCodeChars.contains c))) := collapseRunsAux_chain _ false
  have hall : ∀ c ∈ collapseRuns dashP dashChar
      ((collapseRuns isJsWhitespace dashChar (jsToLower (jsTrim code))).filter
        (fun c => allowedCodeChars.contains c)), c ∈ allowedCodeChars := by
    intro c hc
    rcases collapseRunsAux_mem hc with h | h
    · have := (List.mem_filter.mp h).2
      simpa [List.elem_iff] using this
    · rw [h]
      exact dash_mem_allowed
  exact normalizeCode_eq_self_of _ hchain hall

/-- Digits are not whitespace. -/
theorem digit_not_ws : ∀ c ∈ digitChars, isJsWhitespace c = false := by decide

/-- Digits are not the plus sign. -/
theorem digit_ne_plus : ∀ c ∈ digitChars, c ≠ plusChar := by decide

/-- Digits are digits for the digit test. -/
theorem digit_isAsciiDigit : ∀ c ∈ digitChars, isAsciiDigit c = true := by decide

/-- The plus sign is not whitespace. -/
theorem plus_not_ws : isJsWhitespace plusChar = false := by decide

/-- The plus sign is not a digit. -/
theorem plus_not_digit : isAsciiDigit plusChar = false := by decide

/-- Digit-filter outputs consist of digit characters. -/
theorem filter_digits_all (l : Str) : ∀ c ∈ l.filter isAsciiDigit, c ∈ digitChars := by
  intro c hc
  have := (List.mem_filter.mp hc).2
  simpa [isAsciiDigit, List.elem_iff] using this

/-- `normalizePhoneNumber` is the identity on its possible output shapes:
the empty string, a plus sign followed by digits, or a nonempty digit
string. -/
theorem normalizePhoneNumber_fixed (l : Str)
    (h : l = [] ∨ ∃ ds, (∀ c ∈ ds, c ∈ digitChars)
        ∧ (l = plusChar :: ds ∨ (l = ds ∧ ds ≠ []))) :
    normalizePhoneNumber l = l := by
  rcases h with rfl | ⟨ds, hds, hl | ⟨rfl, hne⟩⟩
  · rfl
  · subst hl
    have hnows : ∀ c ∈ plusChar :: ds, isJsWhitespace c = false := by
      intro c hc
      rcases List.mem_cons.mp hc with rfl | hc
      · exact plus_not_ws
      · exact digit_not_ws c (hds c hc)
    unfold normalizePhoneNumber
    rw [jsTrim_eq_self_of_all _ hnows]
    have hfil : (plusChar :: ds).filter isAsciiDigit = ds := by
      rw [List.filter_cons_of_neg (by simp [plus_not_digit])]
      exact List.filter_eq_self.mpr (fun c hc => digit_isAsciiDigit c (hds c hc))
    simp [hfil]
  · have hnows : ∀ c ∈ l, isJsWhitespace c = false :=
      fun c hc => digit_not_ws c (hds c hc)
    unfold normalizePhoneNumber
    rw [jsTrim_eq_self_of_all _ hnows]
    have hplus : l.head? ≠ some plusChar := by
      cases l with
      | nil => simp
      | cons d t =>
        simp only [List.head?_cons, ne_eq, Option.some.injEq]
        exact digit_ne_plus d (hds d (List.mem_cons_self _ _))
    have hfil : l.filter isAsciiDigit = l :=
      List.filter_eq_self.mpr (fun c hc => digit_isAsciiDigit c (hds c hc))
    simp [hne, hplus, hfil]

/-- `normalizePhoneNumber` is idempotent. -/
theorem normalizePhoneNumber_idem (value : Str) :
    normalizePhoneNumber (normalizePhoneNumber value) = normalizePhoneNumber value := by
  apply normalizePhoneNumber_fixed
  simp only [normalizePhoneNumber]
  by_cases h0 : jsTrim value = []
  · left
    simp [h0]
  · rw [if_neg h0]
    by_cases hp : (jsTrim value).head? = some plusChar
    · right
      exact ⟨(jsTrim value).filter isAsciiDigit, filter_digits_all _, Or.inl (by simp [hp])⟩
    · by_cases hds : (jsTrim value).filter isAsciiDigit = []
      · left
        simp [hp, hds]
      · right
        exact ⟨(jsTrim value).filter isAsciiDigit, filter_digits_all _,
          Or.inr ⟨by simp [hp], hds⟩⟩

/-- Membership in the deduplicated list: a member of the input not yet
seen. -/
theorem dedupFirstAux_mem {α : Type} [DecidableEq α] {a : α} (l : List α) :
    ∀ seen : List α, a ∈ dedupFirstAux seen l ↔ a ∈ l ∧ a ∉ seen := by
  induction l with
  | nil => intro seen; simp [dedupFirstAux]
  | cons x xs ih =>
    intro seen
    rw [dedupFirstAux]
    by_cases hx : x ∈ seen
    · rw [if_pos hx, ih seen]
      constructor
      · rintro ⟨h1, h2⟩
        exact ⟨List.mem_cons_of_mem _ h1, h2⟩
      · rintro ⟨h1, h2⟩
        rcases List.mem_cons.mp h1 with rfl | h1
        · exact absurd hx h2
        · exact ⟨h1, h2⟩
    · rw [if_neg hx]
      constructor
      · intro h
        rcases List.mem_cons.mp h with rfl | h
        · exact ⟨List.mem_cons_self _ _, hx⟩
        · have h2 := (ih (x :: seen)).mp h
          exact ⟨List.mem_cons_of_mem _ h2.1, fun hs => h2.2 (List.mem_cons_of_mem _ hs)⟩
      · rintro ⟨h1, h2⟩
        rcases List.mem_cons.mp h1 with rfl | h1
        · exact List.mem_cons_self _ _
        · by_cases hax : a = x
          · subst hax
            exact List.mem_cons_self _ _
          · refine List.mem_cons_of_mem _ ((ih (x :: seen)).mpr ⟨h1, ?_⟩)
            simp [List.mem_cons, hax, h2]

/-- The deduplicated list has no duplicates. -/
theorem dedupFirstAux_nodup {α : Type} [DecidableEq α] (l : List α) :
    ∀ seen : List α, (dedupFirstAux seen l).Nodup := by
  induction l with
  | nil => intro seen; simp [dedupFirstAux]
  | cons x xs ih =>
    intro seen
    rw [dedupFirstAux]
    by_cases hx : x ∈ seen
    · rw [if_pos hx]
      exact ih seen
    · rw [if_neg hx]
      refine List.nodup_cons.mpr ⟨?_, ih (x :: seen)⟩
      intro hmem
      exact ((dedupFirstAux_mem xs (x :: seen)).mp hmem).2 (List.mem_cons_self _ _)

/-- Membership passes through `dedupFirst`. -/
theorem dedupFirst_mem {α : Type} [DecidableEq α] {a : α} {l : List α} :
    a ∈ dedupFirst l ↔ a ∈ l := by
  unfold dedupFirst
  rw [dedupFirstAux_mem]
  simp

/-- `dedupFirst` never produces duplicates. -/
theorem dedupFirst_nodup {α : Type} [DecidableEq α] (l : List α) : (dedupFirst l).Nodup :=
  dedupFirstAux_nodup l []

/-- Deduplication with a disjoint seen set is the identity on a
duplicate-free list. -/
theorem dedupFirstAux_eq_self {α : Type} [DecidableEq α] (l : List α) :
    ∀ seen : List α, l.Nodup → (∀ a ∈ l, a ∉ seen) → dedupFirstAux seen l = l := by
  induction l with
  | nil => intro seen _ _; rfl
  | cons x xs ih =>
    intro seen hnd hdisj
    rw [dedupFirstAux, if_neg (hdisj x (List.mem_cons_self _ _))]
    congr 1
    apply ih (x :: seen) (List.nodup_cons.mp hnd).2
    intro a ha
    simp only [List.mem_cons]
    push_neg
    exact ⟨fun hax => (List.nodup_cons.mp hnd).1 (hax ▸ ha),
      hdisj a (List.mem_cons_of_mem _ ha)⟩

/-- `dedupFirst` is the identity on a duplicate-free list. -/
theorem dedupFirst_eq_self {α : Type} [DecidableEq α] {l : List α} (h : l.Nodup) :
    dedupFirst l = l :=
  dedupFirstAux_eq_self l [] h (by simp)

/-- Appending one element to the deduplicated input adds it at the end
exactly when it is new. -/
theorem dedupFirstAux_append_one {α : Type} [DecidableEq α] (l : List α) (x : α) :
    ∀ seen : List α, dedupFirstAux seen (l ++ [x]) =
      dedupFirstAux seen l ++ (if x ∈ seen ∨ x ∈ l then [] else [x]) := by
  induction l with
  | nil =>
    intro seen
    simp only [List.nil_append, dedupFirstAux]
    by_cases hx : x ∈ seen
    · simp [hx, dedupFirstAux]
    · simp [hx, dedupFirstAux]
  | cons y ys ih =>
    intro seen
    simp only [List.cons_append, dedupFirstAux, List.append_eq]
    by_cases hy : y ∈ seen
    · rw [if_pos hy, if_pos hy, ih seen]
      have hiff : (x ∈ seen ∨ x ∈ ys) ↔ (x ∈ seen ∨ x ∈ y :: ys) := by
        simp only [List.mem_cons]
        constructor
        · rintro (h | h)
          · exact Or.inl h
          · exact Or.inr (Or.inr h)
        · rintro (h | rfl | h)
          · exact Or.inl h
          · exact Or.inl hy
          · exact Or.inr h
      by_cases hcond : x ∈ seen ∨ x ∈ ys
      · rw [if_pos hcond, if_pos (hiff.mp hcond)]
      · rw [if_neg hcond, if_neg (fun hc => hcond (hiff.mpr hc))]
    · rw [if_neg hy, if_neg hy, ih (y :: seen)]
      have hiff : (x ∈ y :: seen ∨ x ∈ ys) ↔ (x ∈ seen ∨ x ∈ y :: ys) := by
        simp only [List.mem_cons]
        constructor
        · rintro ((rfl | h) | h)
          · exact Or.inr (Or.inl rfl)
          · exact Or.inl h
          · exact Or.inr (Or.inr h)
        · rintro (h | rfl | h)
          · exact Or.inl (Or.inr h)
          · exact Or.inl (Or.inl rfl)
          · exact Or.inr h
      by_cases hcond : x ∈ y :: seen ∨ x ∈ ys
      · rw [if_pos hcond, if_pos (hiff.mp hcond)]
        simp
      · rw [if_neg hcond, if_neg (fun hc => hcond (hiff.mpr hc))]
        simp

/-- Appending one element to a `dedupFirst` input adds it at the end
exactly when it is new. -/
theorem dedupFirst_append_one {α : Type} [DecidableEq α] (l : List α) (x : α) :
    dedupFirst (l ++ [x]) = dedupFirst l ++ (if x ∈ l then [] else [x]) := by
  unfold dedupFirst
  rw [dedupFirstAux_append_one]
  simp

/-- Truncating an integer value changes nothing. -/
theorem truncRat_intCast (k : ℤ) : truncRat (k : ℚ) = k := by
  unfold truncRat
  split
  · exact Int.floor_intCast k
  · exact Int.ceil_intCast k

/-- `Math.trunc` fixes integer numbers. -/
theorem trunc_of_isInteger {n : JsNumber} (h : n.isInteger = true) : n.trunc = n := by
  cases n with
  | fin q =>
    have hden : q.den = 1 := by simpa [JsNumber.isInteger] using h
    have hq : ((q.num : ℚ)) = q := (Rat.den_eq_one_iff q).mp hden
    simp only [JsNumber.trunc]
    rw [← hq, truncRat_intCast]
  | nan => simp [JsNumber.isInteger] at h
  | posInf => simp [JsNumber.isInteger] at h
  | negInf => simp [JsNumber.isInteger] at h

/-- `Math.trunc` is idempotent. -/
theorem trunc_trunc (n : JsNumber) : n.trunc.trunc = n.trunc := by
  cases n with
  | fin q =>
    simp only [JsNumber.trunc]
    rw [truncRat_intCast]
  | nan => rfl
  | posInf => rfl
  | negInf => rfl

/-- `Math.trunc` keeps finiteness. -/
theorem trunc_isFinite {n : JsNumber} (h : n.isFinite = true) : n.trunc.isFinite = true := by
  cases n <;> simp_all [JsNumber.isFinite, JsNumber.trunc]

/-- `normalizePackageTrainers` is idempotent. -/
theorem normalizePackageTrainers_idem (l : List JsNumber) :
    normalizePackageTrainers (normalizePackageTrainers l) = normalizePackageTrainers l := by
  unfold normalizePackageTrainers
  have key : ∀ n ∈ (l.filter (fun id => id.isInteger && (jsInt 0).jlt id)).map JsNumber.trunc,
      (n.isInteger && (jsInt 0).jlt n) = true ∧ n.trunc = n := by
    intro n hn
    obtain ⟨m, hm, rfl⟩ := List.mem_map.mp hn
    have hpm := (List.mem_filter.mp hm).2
    have hint : m.isInteger = true := ((Bool.and_eq_true _ _).mp hpm).1
    rw [trunc_of_isInteger hint]
    exact ⟨hpm, trunc_of_isInteger hint⟩
  rw [List.filter_eq_self.mpr (fun n hn => (key n (dedupFirst_mem.mp hn)).1)]
  rw [List.map_congr_left (fun n hn => (key n (dedupFirst_mem.mp hn)).2), List.map_id']
  exact dedupFirst_eq_self (dedupFirst_nodup _)

/-- `normalizePackageWhatsAppAccountIds` is idempotent. -/
theorem normalizePackageWhatsAppAccountIds_idem (l : List Str) :
    normalizePackageWhatsAppAccountIds (normalizePackageWhatsAppAccountIds l) =
      normalizePackageWhatsAppAccountIds l := by
  unfold normalizePackageWhatsAppAccountIds
  have key : ∀ s ∈ (l.map jsTrim).filter (fun id => decide (0 < id.length)),
      jsTrim s = s ∧ 0 < s.length := by
    intro s hs
    obtain ⟨hmem, hlen⟩ := List.mem_filter.mp hs
    obtain ⟨t, _, rfl⟩ := List.mem_map.mp hmem
    exact ⟨jsTrim_idem t, by simpa using hlen⟩
  rw [List.map_congr_left (fun s hs => (key s (dedupFirst_mem.mp hs)).1), List.map_id']
  rw [List.filter_eq_self.mpr (fun s hs => by simpa using (key s (dedupFirst_mem.mp hs)).2)]
  exact dedupFirst_eq_self (dedupFirst_nodup _)

/-- A member of an upserted map is the new entry or an old entry with a
different key. -/
theorem selUpsert_mem {m : List PackageAdditionalServiceSelection}
    {x sel : PackageAdditionalServiceSelection} (h : sel ∈ selUpsert m x) :
    sel = x ∨ (sel ∈ m ∧ sel.serviceId ≠ x.serviceId) := by
  unfold selUpsert at h
  split at h
  · obtain ⟨e, he, heq⟩ := List.mem_map.mp h
    by_cases hk : e.serviceId = x.serviceId
    · rw [if_pos hk] at heq
      exact Or.inl heq.symm
    · rw [if_neg hk] at heq
      subst heq
      exact Or.inr ⟨he, hk⟩
  · next hany =>
    rcases List.mem_append.mp h with h1 | h1
    · refine Or.inr ⟨h1, fun hk => hany ?_⟩
      exact List.any_eq_true.mpr ⟨sel, h1, by simpa using hk⟩
    · simp at h1
      exact Or.inl h1

/-- Keys of an upserted map: unchanged for an existing key, extended by a
new one. -/
theorem selUpsert_keys (m : List PackageAdditionalServiceSelection)
    (x : PackageAdditionalServiceSelection) :
    (selUpsert m x).map (fun e => e.serviceId) =
      if m.any (fun e => decide (e.serviceId = x.serviceId)) = true
      then m.map (fun e => e.serviceId)
      else m.map (fun e => e.serviceId) ++ [x.serviceId] := by
  unfold selUpsert
  split
  · rw [List.map_map]
    apply List.map_congr_left
    intro e _
    by_cases hk : e.serviceId = x.serviceId
    · simp [hk]
    · simp [hk]
  · simp

/-- Folding upserts keeps the key list duplicate-free. -/
theorem foldl_selUpsert_keys_nodup (l : List PackageAdditionalServiceSelection) :
    ∀ m, (m.map (fun e => e.serviceId)).Nodup →
      ((l.foldl selUpsert m).map (fun e => e.serviceId)).Nodup := by
  induction l with
  | nil => intro m h; simpa using h
  | cons x t ih =>
    intro m h
    rw [List.foldl_cons]
    apply ih
    rw [selUpsert_keys]
    split
    · exact h
    · next hany =>
      refine List.Nodup.append h (List.nodup_singleton _) ?_
      intro a ha hax
      simp only [List.mem_singleton] at hax
      subst hax
      obtain ⟨e, he, hkey⟩ := List.mem_map.mp ha
      exact hany (List.any_eq_true.mpr ⟨e, he, by simpa using hkey⟩)

/-- The deduplicated selection list has duplicate-free keys. -/
theorem dedupLastByKey_keys_nodup (l : List PackageAdditionalServiceSelection) :
    ((dedupLastByKey l).map (fun e => e.serviceId)).Nodup :=
  foldl_selUpsert_keys_nodup l [] (by simp)

/-- `dedupLastByKey` is the identity on a list with duplicate-free keys. -/
theorem dedupLastByKey_eq_self (l : List PackageAdditionalServiceSelection)
    (h : (l.map (fun e => e.serviceId)).Nodup) : dedupLastByKey l = l := by
  induction l using List.reverseRecOn with
  | nil => rfl
  | append_singleton t x ih =>
    rw [List.map_append, List.nodup_append] at h
    unfold dedupLastByKey
    rw [List.foldl_append, List.foldl_cons, List.foldl_nil]
    have ht : dedupLastByKey t = t := ih h.1
    unfold dedupLastByKey at ht
    rw [ht]
    unfold selUpsert
    rw [if_neg ?hany]
    case hany =>
      intro hany
      obtain ⟨e, he, hkey⟩ := List.any_eq_true.mp hany
      exact h.2.2 (List.mem_map.mpr ⟨e, he, by simpa using hkey⟩) (by simp)

/-- Every kept selection is the last input occurrence of its key. -/
theorem dedupLastByKey_last_wins (l : List PackageAdditionalServiceSelection) :
    ∀ sel ∈ dedupLastByKey l,
      l.reverse.find? (fun s => decide (s.serviceId = sel.serviceId)) = some sel := by
  induction l using List.reverseRecOn with
  | nil => intro sel h; simp [dedupLastByKey] at h
  | append_singleton t x ih =>
    intro sel hsel
    rw [dedupLastByKey, List.foldl_append, List.foldl_cons, List.foldl_nil] at hsel
    rw [List.reverse_append, List.reverse_singleton, List.singleton_append]
    rcases selUpsert_mem hsel with rfl | ⟨hmem, hne⟩
    · rw [List.find?_cons_of_pos _ (by simp)]
    · rw [List.find?_cons_of_neg _ (by simpa using fun hk => hne hk.symm)]
      exact ih sel hmem

/-- Kept selections come from the input list. -/
theorem dedupLastByKey_subset {l : List PackageAdditionalServiceSelection}
    {sel : PackageAdditionalServiceSelection} (h : sel ∈ dedupLastByKey l) : sel ∈ l := by
  have := dedupLastByKey_last_wins l sel h
  exact List.mem_reverse.mp (List.mem_of_find?_eq_some this)

/-- Cleaned selections have trimmed nonempty ids. -/
theorem rawAdditionalSelections_mem {sel : PackageAdditionalServiceSelection}
    {l : List PackageAdditionalServiceSelection} (h : sel ∈ rawAdditionalSelections l) :
    jsTrim sel.serviceId = sel.serviceId ∧ sel.serviceId ≠ [] := by
  unfold rawAdditionalSelections at h
  obtain ⟨a, _, hf⟩ := List.mem_filterMap.mp h
  by_cases hid : jsTrim a.serviceId = []
  · simp [hid] at hf
  · rw [if_neg hid] at hf
    have : sel = { serviceId := jsTrim a.serviceId, isActive := a.isActive } := by
      simpa using hf.symm
    rw [this]
    exact ⟨jsTrim_idem _, hid⟩

/-- Cleaning is the identity on selections with trimmed nonempty ids. -/
theorem rawAdditionalSelections_eq_self {l : List PackageAdditionalServiceSelection}
    (h : ∀ s ∈ l, jsTrim s.serviceId = s.serviceId ∧ s.serviceId ≠ []) :
    rawAdditionalSelections l = l := by
  induction l with
  | nil => rfl
  | cons s t ih =>
    have hs := h s (List.mem_cons_self _ _)
    have hcond : ¬(jsTrim s.serviceId = []) := by
      rw [hs.1]
      exact hs.2
    unfold rawAdditionalSelections
    simp only [List.filterMap_cons, if_neg hcond]
    have hself : ({ serviceId := jsTrim s.serviceId, isActive := s.isActive } :
        PackageAdditionalServiceSelection) = s := by
      rw [hs.1]
    rw [hself]
    have ht := ih (fun a ha => h a (List.mem_cons_of_mem _ ha))
    unfold rawAdditionalSelections at ht
    rw [ht]

/-- `normalizePackageAdditionalServices` is idempotent. -/
theorem normalizePackageAdditionalServices_idem (l : List PackageAdditionalServiceSelection) :
    normalizePackageAdditionalServices (normalizePackageAdditionalServices l) =
      normalizePackageAdditionalServices l := by
  unfold normalizePackageAdditionalServices
  have hmem : ∀ s ∈ dedupLastByKey (rawAdditionalSelections l),
      jsTrim s.serviceId = s.serviceId ∧ s.serviceId ≠ [] :=
    fun s hs => rawAdditionalSelections_mem (dedupLastByKey_subset hs)
  rw [rawAdditionalSelections_eq_self hmem]
  exact dedupLastByKey_eq_self _ (dedupLastByKey_keys_nodup _)

/-- Trimming the empty string. -/
theorem jsTrim_nil : jsTrim ([] : Str) = [] := rfl

/-- `normalizePackageDuration` is idempotent. -/
theorem normalizePackageDuration_idem (d : PackageDurationFields) :
    normalizePackageDuration (normalizePackageDuration d) = normalizePackageDuration d := by
  unfold normalizePackageDuration
  by_cases h : d.durationType = .period
  · simp [h, jsTrim_idem, jsTrim_nil]
  · simp [h, jsTrim_idem, jsTrim_nil]

/-- Every frequency is in the allowed list. -/
theorem freq_contains (f : PackagePaymentFrequency) : allowedFrequencies.contains f = true := by
  cases f <;> rfl

/-- Every frequency is a member of the allowed list. -/
theorem freq_mem (f : PackagePaymentFrequency) : f ∈ allowedFrequencies := by
  cases f <;> simp [allowedFrequencies]

/-- NaN is not finite. -/
theorem isFinite_nan : JsNumber.nan.isFinite = false := rfl

/-- The integer-or-null coercion is idempotent. -/
theorem jsIntegerOrNull_idem (x : Option JsNumber) :
    jsIntegerOrNull (jsIntegerOrNull x) = jsIntegerOrNull x := by
  cases x with
  | none => rfl
  | some n =>
    by_cases h : n.isInteger = true
    · simp [jsIntegerOrNull, h]
    · simp [jsIntegerOrNull, h]

/-- `normalizePackagePayment` is idempotent. -/
theorem normalizePackagePayment_idem (p : PackagePaymentFields) :
    normalizePackagePayment (normalizePackagePayment p) = normalizePackagePayment p := by
  unfold normalizePackagePayment
  by_cases hp : p.priceAmount.isFinite = true <;>
    cases hb : p.recurringPaymentEnabled <;>
      cases hf : p.paymentFrequency <;>
        simp [freq_contains, freq_mem, jsIntegerOrNull_idem, hp, isFinite_nan]

/-- `normalizePackageEntries` is idempotent: re-normalizing a payload whose
entries count was already normalized changes nothing. -/
theorem normalizePackageEntries_idem (e : PackageEntriesFields) :
    normalizePackageEntries { e with entriesCount := normalizePackageEntries e } =
      normalizePackageEntries e := by
  unfold normalizePackageEntries
  by_cases hd : e.recurringPaymentEnabled = true ∧ e.paymentFrequency = .daily
  · simp [hd]
  · simp only [hd, if_false, if_neg]
    cases hx : e.entriesCount with
    | none => simp [jsFiniteTruncOrNull, hd]
    | some n =>
      by_cases hfin : n.isFinite = true
      · simp [jsFiniteTruncOrNull, hfin, hd, trunc_isFinite hfin, trunc_trunc]
      · simp [jsFiniteTruncOrNull, hfin, hd]

/-- C2: every normalization function of the catalog subsystem is
idempotent; in particular slug-code, IBAN, phone-number, duration,
payment, entries, trainer-id-list, WhatsApp-account-id-list, and
additional-service-selection normalization. -/
theorem claim_C2_normalization_idempotent :
    (∀ s : Str, normalizeCode (normalizeCode s) = normalizeCode s)
    ∧ (∀ s : Str, normalizeIban (normalizeIban s) = normalizeIban s)
    ∧ (∀ s : Str, normalizePhoneNumber (normalizePhoneNumber s) = normalizePhoneNumber s)
    ∧ (∀ d : PackageDurationFields,
        normalizePackageDuration (normalizePackageDuration d) = normalizePackageDuration d)
    ∧ (∀ p : PackagePaymentFields,
        normalizePackagePayment (normalizePackagePayment p) = normalizePackagePayment p)
    ∧ (∀ e : PackageEntriesFields,
        normalizePackageEntries { e with entriesCount := normalizePackageEntries e } =
          normalizePackageEntries e)
    ∧ (∀ l : List JsNumber,
        normalizePackageTrainers (normalizePackageTrainers l) = normalizePackageTrainers l)
    ∧ (∀ l : List Str,
        normalizePackageWhatsAppAccountIds (normalizePackageWhatsAppAccountIds l) =
          normalizePackageWhatsAppAccountIds l)
    ∧ (∀ l : List PackageAdditionalServiceSelection,
        normalizePackageAdditionalServices (normalizePackageAdditionalServices l) =
          normalizePackageAdditionalServices l) :=
  ⟨normalizeCode_idem, normalizeIban_idem, normalizePhoneNumber_idem,
    normalizePackageDuration_idem, normalizePackagePayment_idem, normalizePackageEntries_idem,
    normalizePackageTrainers_idem, normalizePackageWhatsAppAccountIds_idem,
    normalizePackageAdditionalServices_idem⟩

/-- Fixture: a category on file. -/
def sampleCategory : PackageCategory :=
  { id := "cat1".toList, code := "cat".toList, label := "Cat".toList, icon := []
    isActive := true, sortOrder := jsInt 1 }

/-- Fixture: a company on file. -/
def sampleCompany : Company :=
  { id := "co1".toList, title := "Co".toList, headquartersAddress := "HQ".toList
    googlePlaceId := "g".toList, vatNumber := "v".toList, iban := "IT00".toList
    paypalEnabled := false, paypalClientId := [], email := "a@b.c".toList
    consentMinors := "x".toList, consentAdults := "x".toList
    consentInformationNotice := "x".toList, consentDataProcessing := "x".toList }

/-- Fixture: a fixed-price additional service on file. -/
def sampleFixedService : AdditionalService :=
  { id := "s1".toList, title := "S".toList, type := .fixed, price := some (jsInt 5)
    isActive := true, description := "d".toList }

/-- Fixture: an enrollment type on file. -/
def sampleEnrollmentType : EnrollmentType :=
  { id := "e1".toList, title := "E".toList, description := "d".toList }

/-- Fixture: a stored package. -/
def samplePackage : SportPackage :=
  { id := "pkg0".toList, categoryId := "cat1".toList, companyId := "co1".toList
    enrollmentId := [], enrollmentPrice := jsInt 0, trainerIds := []
    whatsappAccountIds := ["w1".toList], additionalFixedServices := []
    additionalVariableServices := [], audience := .adult, name := "P".toList
    description := "D".toList, ageMin := jsInt 18, ageMax := jsInt 99
    durationType := .singleEvent, eventDate := "2025-01-01".toList
    eventTime := "10:00".toList, periodStartDate := [], periodEndDate := []
    gallery := [], groups := [], recurringPaymentEnabled := false
    paymentFrequency := .monthly, priceAmount := jsInt 50, monthlyDueDay := none
    monthlyNextCycleOpenDay := none, weeklyDueWeekday := none, firstPaymentOnSite := false
    trainingAddress := [], entriesCount := some (jsInt 1), userSelectableSchedule := false
    featuredImage := [], isFeatured := false, isDescriptive := false, status := .draft }

/-- Fixture: a stored package not referencing any WhatsApp account. -/
def samplePackageNoWa : SportPackage :=
  { samplePackage with id := "pkg2".toList, whatsappAccountIds := [] }

/-- Fixture: a WhatsApp account on file. -/
def sampleWaAccount : WhatsAppAccount :=
  { id := "w1".toList, title := "W".toList, phoneNumber := "+393331234567".toList
    avatarUrl := [], isActive := true, alwaysAvailable := true, availabilitySlots := []
    offlineMessage := [], buttonStyle := { label := "WhatsApp".toList
                                           backgroundColor := "#25D366".toList
                                           textColor := "#ffffff".toList } }

/-- Fixture: the base catalog (category, company, one fixed service; no
enrollment types). -/
def sampleCatalog : Catalog :=
  { sportCategories := [sampleCategory], fields := [], enrollments := []
    whatsappAccounts := [], additionalServices := [sampleFixedService]
    companies := [sampleCompany], packages := [] }

/-- Fixture: the base catalog with one enrollment type on file. -/
def sampleCatalogWithEnrollment : Catalog :=
  { sampleCatalog with enrollments := [sampleEnrollmentType] }

/-- Fixture: the base catalog with one stored package. -/
def sampleCatalogWithPackage : Catalog :=
  { sampleCatalog with packages := [samplePackage] }

/-- Fixture: catalog with a WhatsApp account and two packages, one
referencing the account and one not. -/
def sampleCatalogWa : Catalog :=
  { sampleCatalog with whatsappAccounts := [sampleWaAccount]
                       packages := [samplePackage, samplePackageNoWa] }

/-- Fixture: a fully valid package payload against `sampleCatalog`; the
trainer list and the fixed-service selection list carry duplicates on
purpose. -/
def samplePackagePayload : SavePackagePayload :=
  { name := "p".toList, description := "d".toList, categoryId := "cat1".toList
    companyId := "co1".toList, enrollmentId := [], enrollmentPrice := jsInt 0
    trainerIds := [jsInt 1, jsInt 1, jsInt 2], whatsappAccountIds := []
    additionalFixedServices := [{ serviceId := "s1".toList, isActive := true },
                                { serviceId := "s1".toList, isActive := false }]
    additionalVariableServices := [], audience := .adult, ageMin := jsInt 18
    ageMax := jsInt 99, durationType := .singleEvent, eventDate := "2025-01-01".toList
    eventTime := "10:00".toList, periodStartDate := [], periodEndDate := []
    gallery := [], groups := [], recurringPaymentEnabled := false
    paymentFrequency := .monthly, priceAmount := jsInt 50, monthlyDueDay := none
    monthlyNextCycleOpenDay := none, weeklyDueWeekday := none, firstPaymentOnSite := false
    trainingAddress := [], entriesCount := some (jsInt 1), userSelectableSchedule := false
    featuredImage := [], isFeatured := false, isDescriptive := false }

/-- Fixture: trivial id generators for package saves. -/
def sampleIdGen : PackageIdGen :=
  { galleryId := fun _ => [], groupId := fun _ => [], scheduleId := fun _ _ => [] }

/-- C1: for every catalog-store operation (create, update, remove of any
entity) and every starting catalog, a call either succeeds or returns the
stored catalog exactly as it was: no failing call mutates any collection
and no partial write occurs. -/
theorem claim_C1_failure_leaves_catalog_unchanged :
    (∀ (cat : Catalog) (freshId : Str) (p : SaveCategoryPayload),
      resOk (createSportCategory cat freshId p).1 = true ∨ (createSportCategory cat freshId p).2.1 = cat)
    ∧ (∀ (cat : Catalog) (id : Str) (p : SaveCategoryPayload),
      resOk (updateSportCategory cat id p).1 = true ∨ (updateSportCategory cat id p).2.1 = cat)
    ∧ (∀ (cat : Catalog) (id : Str),
      resOk (removeSportCategory cat id).1 = true ∨ (removeSportCategory cat id).2.1 = cat)
    ∧ (∀ (cat : Catalog) (freshId : Str) (p : SaveFieldPayload),
      resOk (createField cat freshId p).1 = true ∨ (createField cat freshId p).2.1 = cat)
    ∧ (∀ (cat : Catalog) (id : Str) (p : SaveFieldPayload),
      resOk (updateField cat id p).1 = true ∨ (updateField cat id p).2.1 = cat)
    ∧ (∀ (cat : Catalog) (id : Str),
      resOk (removeField cat id).1 = true ∨ (removeField cat id).2.1 = cat)
    ∧ (∀ (cat : Catalog) (freshId : Str) (p : SaveEnrollmentPayload),
      resOk (createEnrollment cat freshId p).1 = true ∨ (createEnrollment cat freshId p).2.1 = cat)
    ∧ (∀ (cat : Catalog) (id : Str) (p : SaveEnrollmentPayload),
      resOk (updateEnrollment cat id p).1 = true ∨ (updateEnrollment cat id p).2.1 = cat)
    ∧ (∀ (cat : Catalog) (id : Str),
      resOk (removeEnrollment cat id).1 = true ∨ (removeEnrollment cat id).2.1 = cat)
    ∧ (∀ (cat : Catalog) (freshId : Str) (fs : Nat → Str) (p : SaveWhatsAppAccountPayload),
      resOk (createWhatsAppAccount cat freshId fs p).1 = true ∨ (createWhatsAppAccount cat freshId fs p).2.1 = cat)
    ∧ (∀ (cat : Catalog) (id : Str) (fs : Nat → Str) (p : SaveWhatsAppAccountPayload),
      resOk (updateWhatsAppAccount cat id fs p).1 = true ∨ (updateWhatsAppAccount cat id fs p).2.1 = cat)
    ∧ (∀ (cat : Catalog) (id : Str),
      resOk (removeWhatsAppAccount cat id).1 = true ∨ (removeWhatsAppAccount cat id).2.1 = cat)
    ∧ (∀ (cat : Catalog) (freshId : Str) (p : SaveAdditionalServicePayload),
      resOk (createAdditionalService cat freshId p).1 = true ∨ (createAdditionalService cat freshId p).2.1 = cat)
    ∧ (∀ (cat : Catalog) (id : Str) (p : SaveAdditionalServicePayload),
      resOk (updateAdditionalService cat id p).1 = true ∨ (updateAdditionalService cat id p).2.1 = cat)
    ∧ (∀ (cat : Catalog) (id : Str),
      resOk (removeAdditionalService cat id).1 = true ∨ (removeAdditionalService cat id).2.1 = cat)
    ∧ (∀ (cat : Catalog) (freshId : Str) (p : SaveCompanyPayload),
      resOk (createCompany cat freshId p).1 = true ∨ (createCompany cat freshId p).2.1 = cat)
    ∧ (∀ (cat : Catalog) (id : Str) (p : SaveCompanyPayload),
      resOk (updateCompany cat id p).1 = true ∨ (updateCompany cat id p).2.1 = cat)
    ∧ (∀ (cat : Catalog) (id : Str),
      resOk (removeCompany cat id).1 = true ∨ (removeCompany cat id).2.1 = cat)
    ∧ (∀ (cat : Catalog) (freshId : Str) (gen : PackageIdGen) (year : ℤ) (p : SavePackagePayload),
      resOk (createSportPackage cat freshId gen year p).1 = true ∨ (createSportPackage cat freshId gen year p).2.1 = cat)
    ∧ (∀ (cat : Catalog) (id : Str) (gen : PackageIdGen) (year : ℤ) (p : SavePackagePayload),
      resOk (updateSportPackage cat id gen year p).1 = true ∨ (updateSportPackage cat id gen year p).2.1 = cat)
    ∧ (∀ (cat : Catalog) (id : Str),
      resOk (removeSportPackage cat id).1 = true ∨ (removeSportPackage cat id).2.1 = cat) := by
  refine ⟨?_, ?_, ?_, ?_, ?_, ?_, ?_, ?_, ?_, ?_, ?_, ?_, ?_, ?_, ?_, ?_, ?_, ?_, ?_, ?_, ?_⟩
  · intro cat freshId p
    simp only [createSportCategory]
    repeat' split
    all_goals simp [resOk, writeStoredCatalog]
  · intro cat id p
    simp only [updateSportCategory]
    repeat' split
    all_goals simp [resOk, writeStoredCatalog]
  · intro cat id
    simp only [removeSportCategory]
    repeat' split
    all_goals simp [resOk, writeStoredCatalog]
  · intro cat freshId p
    simp only [createField]
    repeat' split
    all_goals simp [resOk, writeStoredCatalog]
  · intro cat id p
    simp only [updateField]
    repeat' split
    all_goals simp [resOk, writeStoredCatalog]
  · intro cat id
    simp only [removeField]
    repeat' split
    all_goals simp [resOk, writeStoredCatalog]
  · intro cat freshId p
    simp only [createEnrollment]
    repeat' split
    all_goals simp [resOk, writeStoredCatalog]
  · intro cat id p
    simp only [updateEnrollment]
    repeat' split
    all_goals simp [resOk, writeStoredCatalog]
  · intro cat id
    simp only [removeEnrollment]
    repeat' split
    all_goals simp [resOk, writeStoredCatalog]
  · intro cat freshId fs p
    simp only [createWhatsAppAccount]
    repeat' split
    all_goals simp [resOk, writeStoredCatalog]
  · intro cat id fs p
    simp only [updateWhatsAppAccount]
    repeat' split
    all_goals simp [resOk, writeStoredCatalog]
  · intro cat id
    simp only [removeWhatsAppAccount]
    repeat' split
    all_goals simp [resOk, writeStoredCatalog]
  · intro cat freshId p
    simp only [createAdditionalService]
    repeat' split
    all_goals simp [resOk, writeStoredCatalog]
  · intro cat id p
    simp only [updateAdditionalService]
    repeat' split
    all_goals simp [resOk, writeStoredCatalog]
  · intro cat id
    simp only [removeAdditionalService]
    repeat' split
    all_goals simp [resOk, writeStoredCatalog]
  · intro cat freshId p
    simp only [createCompany]
    repeat' split
    all_goals simp [resOk, writeStoredCatalog]
  · intro cat id p
    simp only [updateCompany]
    repeat' split
    all_goals simp [resOk, writeStoredCatalog]
  · intro cat id
    simp only [removeCompany]
    repeat' split
    all_goals simp [resOk, writeStoredCatalog]
  · intro cat freshId gen year p
    simp only [createSportPackage]
    repeat' split
    all_goals simp [resOk, writeStoredCatalog]
  · intro cat id gen year p
    simp only [updateSportPackage]
    repeat' split
    all_goals simp [resOk, writeStoredCatalog]
  · intro cat id
    simp only [removeSportPackage]
    repeat' split
    all_goals simp [resOk, writeStoredCatalog]

/-- C9 (amended): every successful mutation of any of the seven
collections emits exactly one payload-less change signal, and it is the
single shared name of the whole catalog
(`pys-package-catalog-changed`); failed calls emit nothing. The signal
names are not distinct per collection. -/
theorem claim_C9_amended_single_shared_signal :
    (∀ (cat : Catalog) (freshId : Str) (p : SaveCategoryPayload),
      (createSportCategory cat freshId p).2.2 =
        if resOk (createSportCategory cat freshId p).1 = true then [PACKAGE_CATALOG_CHANGED_EVENT] else [])
    ∧ (∀ (cat : Catalog) (id : Str) (p : SaveCategoryPayload),
      (updateSportCategory cat id p).2.2 =
        if resOk (updateSportCategory cat id p).1 = true then [PACKAGE_CATALOG_CHANGED_EVENT] else [])
    ∧ (∀ (cat : Catalog) (id : Str),
      (removeSportCategory cat id).2.2 =
        if resOk (removeSportCategory cat id).1 = true then [PACKAGE_CATALOG_CHANGED_EVENT] else [])
    ∧ (∀ (cat : Catalog) (freshId : Str) (p : SaveFieldPayload),
      (createField cat freshId p).2.2 =
        if resOk (createField cat freshId p).1 = true then [PACKAGE_CATALOG_CHANGED_EVENT] else [])
    ∧ (∀ (cat : Catalog) (id : Str) (p : SaveFieldPayload),
      (updateField cat id p).2.2 =
        if resOk (updateField cat id p).1 = true then [PACKAGE_CATALOG_CHANGED_EVENT] else [])
    ∧ (∀ (cat : Catalog) (id : Str),
      (removeField cat id).2.2 =
        if resOk (removeField cat id).1 = true then [PACKAGE_CATALOG_CHANGED_EVENT] else [])
    ∧ (∀ (cat : Catalog) (freshId : Str) (p : SaveEnrollmentPayload),
      (createEnrollment cat freshId p).2.2 =
        if resOk (createEnrollment cat freshId p).1 = true then [PACKAGE_CATALOG_CHANGED_EVENT] else [])
    ∧ (∀ (cat : Catalog) (id : Str) (p : SaveEnrollmentPayload),
      (updateEnrollment cat id p).2.2 =
        if resOk (updateEnrollment cat id p).1 = true then [PACKAGE_CATALOG_CHANGED_EVENT] else [])
    ∧ (∀ (cat : Catalog) (id : Str),
      (removeEnrollment cat id).2.2 =
        if resOk (removeEnrollment cat id).1 = true then [PACKAGE_CATALOG_CHANGED_EVENT] else [])
    ∧ (∀ (cat : Catalog) (freshId : Str) (fs : Nat → Str) (p : SaveWhatsAppAccountPayload),
      (createWhatsAppAccount cat freshId fs p).2.2 =
        if resOk (createWhatsAppAccount cat freshId fs p).1 = true then [PACKAGE_CATALOG_CHANGED_EVENT] else [])
    ∧ (∀ (cat : Catalog) (id : Str) (fs : Nat → Str) (p : SaveWhatsAppAccountPayload),
      (updateWhatsAppAccount cat id fs p).2.2 =
        if resOk (updateWhatsAppAccount cat id fs p).1 = true then [PACKAGE_CATALOG_CHANGED_EVENT] else [])
    ∧ (∀ (cat : Catalog) (id : Str),
      (removeWhatsAppAccount cat id).2.2 =
        if resOk (removeWhatsAppAccount cat id).1 = true then [PACKAGE_CATALOG_CHANGED_EVENT] else [])
    ∧ (∀ (cat : Catalog) (freshId : Str) (p : SaveAdditionalServicePayload),
      (createAdditionalService cat freshId p).2.2 =
        if resOk (createAdditionalService cat freshId p).1 = true then [PACKAGE_CATALOG_CHANGED_EVENT] else [])
    ∧ (∀ (cat : Catalog) (id : Str) (p : SaveAdditionalServicePayload),
      (updateAdditionalService cat id p).2.2 =
        if resOk (updateAdditionalService cat id p).1 = true then [PACKAGE_CATALOG_CHANGED_EVENT] else [])
    ∧ (∀ (cat : Catalog) (id : Str),
      (removeAdditionalService cat id).2.2 =
        if resOk (removeAdditionalService cat id).1 = true then [PACKAGE_CATALOG_CHANGED_EVENT] else [])
    ∧ (∀ (cat : Catalog) (freshId : Str) (p : SaveCompanyPayload),
      (createCompany cat freshId p).2.2 =
        if resOk (createCompany cat freshId p).1 = true then [PACKAGE_CATALOG_CHANGED_EVENT] else [])
    ∧ (∀ (cat : Catalog) (id : Str) (p : SaveCompanyPayload),
      (updateCompany cat id p).2.2 =
        if resOk (updateCompany cat id p).1 = true then [PACKAGE_CATALOG_CHANGED_EVENT] else [])
    ∧ (∀ (cat : Catalog) (id : Str),
      (removeCompany cat id).2.2 =
        if resOk (removeCompany cat id).1 = true then [PACKAGE_CATALOG_CHANGED_EVENT] else [])
    ∧ (∀ (cat : Catalog) (freshId : Str) (gen : PackageIdGen) (year : ℤ) (p : SavePackagePayload),
      (createSportPackage cat freshId gen year p).2.2 =
        if resOk (createSportPackage cat freshId gen year p).1 = true then [PACKAGE_CATALOG_CHANGED_EVENT] else [])
    ∧ (∀ (cat : Catalog) (id : Str) (gen : PackageIdGen) (year : ℤ) (p : SavePackagePayload),
      (updateSportPackage cat id gen year p).2.2 =
        if resOk (updateSportPackage cat id gen year p).1 = true then [PACKAGE_CATALOG_CHANGED_EVENT] else [])
    ∧ (∀ (cat : Catalog) (id : Str),
      (removeSportPackage cat id).2.2 =
        if resOk (removeSportPackage cat id).1 = true then [PACKAGE_CATALOG_CHANGED_EVENT] else []) := by
  refine ⟨?_, ?_, ?_, ?_, ?_, ?_, ?_, ?_, ?_, ?_, ?_, ?_, ?_, ?_, ?_, ?_, ?_, ?_, ?_, ?_, ?_⟩
  · intro cat freshId p
    simp only [createSportCategory]
    repeat' split
    all_goals simp_all [resOk, writeStoredCatalog]
  · intro cat id p
    simp only [updateSportCategory]
    repeat' split
    all_goals simp_all [resOk, writeStoredCatalog]
  · intro cat id
    simp only [removeSportCategory]
    repeat' split
    all_goals simp_all [resOk, writeStoredCatalog]
  · intro cat freshId p
    simp only [createField]
    repeat' split
    all_goals simp_all [resOk, writeStoredCatalog]
  · intro cat id p
    simp only [updateField]
    repeat' split
    all_goals simp_all [resOk, writeStoredCatalog]
  · intro cat id
    simp only [removeField]
    repeat' split
    all_goals simp_all [resOk, writeStoredCatalog]
  · intro cat freshId p
    simp only [createEnrollment]
    repeat' split
    all_goals simp_all [resOk, writeStoredCatalog]
  · intro cat id p
    simp only [updateEnrollment]
    repeat' split
    all_goals simp_all [resOk, writeStoredCatalog]
  · intro cat id
    simp only [removeEnrollment]
    repeat' split
    all_goals simp_all [resOk, writeStoredCatalog]
  · intro cat freshId fs p
    simp only [createWhatsAppAccount]
    repeat' split
    all_goals simp_all [resOk, writeStoredCatalog]
  · intro cat id fs p
    simp only [updateWhatsAppAccount]
    repeat' split
    all_goals simp_all [resOk, writeStoredCatalog]
  · intro cat id
    simp only [removeWhatsAppAccount]
    repeat' split
    all_goals simp_all [resOk, writeStoredCatalog]
  · intro cat freshId p
    simp only [createAdditionalService]
    repeat' split
    all_goals simp_all [resOk, writeStoredCatalog]
  · intro cat id p
    simp only [updateAdditionalService]
    repeat' split
    all_goals simp_all [resOk, writeStoredCatalog]
  · intro cat id
    simp only [removeAdditionalService]
    repeat' split
    all_goals simp_all [resOk, writeStoredCatalog]
  · intro cat freshId p
    simp only [createCompany]
    repeat' split
    all_goals simp_all [resOk, writeStoredCatalog]
  · intro cat id p
    simp only [updateCompany]
    repeat' split
    all_goals simp_all [resOk, writeStoredCatalog]
  · intro cat id
    simp only [removeCompany]
    repeat' split
    all_goals simp_all [resOk, writeStoredCatalog]
  · intro cat freshId gen year p
    simp only [createSportPackage]
    repeat' split
    all_goals simp_all [resOk, writeStoredCatalog]
  · intro cat id gen year p
    simp only [updateSportPackage]
    repeat' split
    all_goals simp_all [resOk, writeStoredCatalog]
  · intro cat id
    simp only [removeSportPackage]
    repeat' split
    all_goals simp_all [resOk, writeStoredCatalog]

/-- C9 counterexample: a successful enrollment-collection mutation and a
successful package-collection mutation emit the same event name, so
change-signal names are not distinct per collection. -/
theorem claim_C9_counterexample :
    resOk (createEnrollment sampleCatalog ("e-new".toList)
        { title := "T".toList, description := "D".toList }).1 = true
    ∧ resOk (removeSportPackage sampleCatalogWithPackage ("pkg0".toList)).1 = true
    ∧ (createEnrollment sampleCatalog ("e-new".toList)
        { title := "T".toList, description := "D".toList }).2.2 =
      (removeSportPackage sampleCatalogWithPackage ("pkg0".toList)).2.2
    ∧ (createEnrollment sampleCatalog ("e-new".toList)
        { title := "T".toList, description := "D".toList }).2.2 =
      [PACKAGE_CATALOG_CHANGED_EVENT] := by
  refine ⟨?_, ?_, ?_, ?_⟩ <;> decide

/-- The integer-or-null coercion returns exactly the integer inputs. -/
theorem jsIntegerOrNull_eq_some {x : Option JsNumber} {d : JsNumber} :
    jsIntegerOrNull x = some d ↔ x = some d ∧ d.isInteger = true := by
  cases x with
  | none => simp [jsIntegerOrNull]
  | some n =>
    by_cases h : n.isInteger = true
    · simp only [jsIntegerOrNull, if_pos h, Option.some.injEq]
      constructor
      · rintro rfl
        exact ⟨rfl, h⟩
      · rintro ⟨heq, _⟩
        simpa using heq
    · simp only [jsIntegerOrNull, if_neg h]
      constructor
      · intro hfalse
        exact absurd hfalse (by simp)
      · rintro ⟨heq, hint⟩
        have : n = d := by simpa using heq
        subst this
        exact absurd hint h

/-- An optional number is an integer in a closed range exactly when its
integer coercion survives and the JS comparisons against the bounds
hold. -/
theorem optIntInRange_iff (x : Option JsNumber) (lo hi : ℤ) :
    (∃ k : ℤ, x = some (jsInt k) ∧ lo ≤ k ∧ k ≤ hi) ↔
      ∃ d, jsIntegerOrNull x = some d
        ∧ (jsInt lo).jle d = true ∧ d.jle (jsInt hi) = true := by
  constructor
  · rintro ⟨k, rfl, h1, h2⟩
    refine ⟨jsInt k, ?_, ?_, ?_⟩
    · rw [jsIntegerOrNull_eq_some]
      exact ⟨rfl, by simp [jsInt, JsNumber.isInteger, Rat.den_intCast]⟩
    · simp only [jsInt, JsNumber.jle, decide_eq_true_eq]
      exact_mod_cast h1
    · simp only [jsInt, JsNumber.jle, decide_eq_true_eq]
      exact_mod_cast h2
  · rintro ⟨d, hd, hlo, hhi⟩
    rw [jsIntegerOrNull_eq_some] at hd
    obtain ⟨hx, hint⟩ := hd
    cases d with
    | fin q =>
      have hden : q.den = 1 := by simpa [JsNumber.isInteger] using hint
      have hq : ((q.num : ℚ)) = q := (Rat.den_eq_one_iff q).mp hden
      refine ⟨q.num, ?_, ?_, ?_⟩
      · rw [hx]
        simp [jsInt, hq]
      · have : (lo : ℚ) ≤ q := by simpa [jsInt, JsNumber.jle] using hlo
        rw [← hq] at this
        exact_mod_cast this
      · have : q ≤ (hi : ℚ) := by simpa [jsInt, JsNumber.jle] using hhi
        rw [← hq] at this
        exact_mod_cast this
    | nan => simp [JsNumber.isInteger] at hint
    | posInf => simp [JsNumber.isInteger] at hint
    | negInf => simp [JsNumber.isInteger] at hint

/-- The normalized price passes the finiteness and sign test exactly when
the input price is a finite non-negative number. -/
theorem price_ok_iff (n : JsNumber) :
    ((if n.isFinite then n else JsNumber.nan).isFinite = true
      ∧ ¬((if n.isFinite then n else JsNumber.nan).jlt (jsInt 0) = true))
      ↔ ∃ q : ℚ, n = .fin q ∧ 0 ≤ q := by
  cases n with
  | fin q =>
    simp only [JsNumber.isFinite, if_true, JsNumber.jlt, jsInt]
    simp [not_lt]
  | nan => simp [JsNumber.isFinite, isFinite_nan]
  | posInf => simp [JsNumber.isFinite, isFinite_nan]
  | negInf => simp [JsNumber.isFinite, isFinite_nan]

/-- Boolean-equation form of the price test characterization. -/
theorem price_ok_iff_false (n : JsNumber) :
    ((if n.isFinite = true then n else JsNumber.nan).isFinite = true
      ∧ (if n.isFinite = true then n else JsNumber.nan).jlt (jsInt 0) = false)
      ↔ ∃ q : ℚ, n = .fin q ∧ 0 ≤ q := by
  rw [← price_ok_iff n]
  simp

/-- The weekly due-weekday test matches its range characterization. -/
theorem weekly_match_iff (x : Option JsNumber) :
    (match jsIntegerOrNull x with
      | some w => (jsInt 0).jle w && w.jle (jsInt 6)
      | none => false) = true
      ↔ ∃ d, jsIntegerOrNull x = some d
          ∧ (jsInt 0).jle d = true ∧ d.jle (jsInt 6) = true := by
  cases hx : jsIntegerOrNull x <;> simp

/-- The monthly due-day pair test matches its range characterization. -/
theorem monthly_match_iff (x y : Option JsNumber) :
    (match jsIntegerOrNull x, jsIntegerOrNull y with
      | some d, some o => (jsInt 1).jle d && d.jle (jsInt 31)
          && (jsInt 1).jle o && o.jle (jsInt 31)
      | _, _ => false) = true
      ↔ (∃ d, jsIntegerOrNull x = some d ∧ (jsInt 1).jle d = true ∧ d.jle (jsInt 31) = true)
        ∧ (∃ d, jsIntegerOrNull y = some d ∧ (jsInt 1).jle d = true ∧ d.jle (jsInt 31) = true) := by
  cases hx : jsIntegerOrNull x <;> cases hy : jsIntegerOrNull y <;>
    simp <;> tauto

/-- The payment acceptance test of the code agrees with the claimed
acceptance condition. -/
theorem payment_accept_iff (p : PackagePaymentFields) :
    isValidPackagePayment p = true ↔ paymentAcceptedSpec p := by
  unfold isValidPackagePayment paymentAcceptedSpec
  simp only [normalizePackagePayment, freq_contains, freq_mem, if_true]
  cases hb : p.recurringPaymentEnabled <;> cases hf : p.paymentFrequency <;>
    simp_all [price_ok_iff_false, weekly_match_iff, monthly_match_iff,
      dueDayIn1to31, weekdayIn0to6, optIntInRange_iff]

/-- Equality of discriminated operation results is decidable. -/
instance exceptDecidableEq {e a : Type} [DecidableEq e] [DecidableEq a] :
    DecidableEq (Except e a) := fun x y =>
  match x, y with
  | .ok u, .ok v => if h : u = v then .isTrue (by rw [h]) else .isFalse (by simp [h])
  | .error u, .error v => if h : u = v then .isTrue (by rw [h]) else .isFalse (by simp [h])
  | .ok _, .error _ => .isFalse (by simp)
  | .error _, .ok _ => .isFalse (by simp)

/-- Normalization nulls the payment sub-fields irrelevant to the chosen
frequency. -/
theorem payment_nulls (p : PackagePaymentFields) :
    (normalizePackagePayment p).monthlyDueDay =
      (if p.recurringPaymentEnabled = true ∧ p.paymentFrequency = .monthly
        then jsIntegerOrNull p.monthlyDueDay else none)
    ∧ (normalizePackagePayment p).monthlyNextCycleOpenDay =
      (if p.recurringPaymentEnabled = true ∧ p.paymentFrequency = .monthly
        then jsIntegerOrNull p.monthlyNextCycleOpenDay else none)
    ∧ (normalizePackagePayment p).weeklyDueWeekday =
      (if p.recurringPaymentEnabled = true ∧ p.paymentFrequency = .weekly
        then jsIntegerOrNull p.weeklyDueWeekday else none) := by
  unfold normalizePackagePayment
  cases hb : p.recurringPaymentEnabled <;> cases hf : p.paymentFrequency <;>
    simp [freq_mem, freq_contains]

/-- C4: a payment block is accepted exactly when the price is a finite
number at least 0 and, when recurring, monthly frequency carries both
integer due days in 1..31 (so a monthly payload omitting the due day is
rejected with invalidPayment) and weekly an integer due weekday in 0..6;
normalization nulls the sub-fields irrelevant to the chosen frequency
(all three when not recurring, the monthly pair when not monthly, the
weekly weekday when not weekly); the sample monthly payload with due days
5 and 20 is accepted. -/
theorem claim_C4_payment_block :
    (∀ p : PackagePaymentFields, isValidPackagePayment p = true ↔ paymentAcceptedSpec p)
    ∧ (∀ p : PackagePaymentFields,
        (normalizePackagePayment p).monthlyDueDay =
          (if p.recurringPaymentEnabled = true ∧ p.paymentFrequency = .monthly
            then jsIntegerOrNull p.monthlyDueDay else none)
        ∧ (normalizePackagePayment p).monthlyNextCycleOpenDay =
          (if p.recurringPaymentEnabled = true ∧ p.paymentFrequency = .monthly
            then jsIntegerOrNull p.monthlyNextCycleOpenDay else none)
        ∧ (normalizePackagePayment p).weeklyDueWeekday =
          (if p.recurringPaymentEnabled = true ∧ p.paymentFrequency = .weekly
            then jsIntegerOrNull p.weeklyDueWeekday else none))
    ∧ isValidPackagePayment
        { recurringPaymentEnabled := true
          paymentFrequency := .monthly
          priceAmount := jsInt 50
          monthlyDueDay := some (jsInt 5)
          monthlyNextCycleOpenDay := some (jsInt 20)
          weeklyDueWeekday := none
          firstPaymentOnSite := false } = true
    ∧ (createSportPackage sampleCatalog ("pkg1".toList) sampleIdGen 2025
        { samplePackagePayload with
          recurringPaymentEnabled := true
          paymentFrequency := .monthly
          monthlyDueDay := none
          monthlyNextCycleOpenDay := some (jsInt 20) }).1 =
      .error .invalidPayment :=
  ⟨payment_accept_iff, payment_nulls, by decide, by decide⟩

/-- A null entries count is accepted exactly for a recurring daily
package. -/
theorem entries_null_iff (e : PackageEntriesFields) :
    (isValidPackageEntries e = true ∧ normalizePackageEntries e = none) ↔
      (e.recurringPaymentEnabled = true ∧ e.paymentFrequency = .daily) := by
  by_cases hd : e.recurringPaymentEnabled = true ∧ e.paymentFrequency = .daily
  · have hnorm : normalizePackageEntries e = none := by
      unfold normalizePackageEntries
      rw [if_pos hd]
    have hvalid : isValidPackageEntries e = true := by
      unfold isValidPackageEntries
      rw [hnorm]
      simp [hd.1, hd.2]
    simp [hnorm, hvalid, hd.1, hd.2]
  · simp only [hd, iff_false]
    rintro ⟨hv, hn⟩
    unfold isValidPackageEntries at hv
    rw [hn] at hv
    simp only [Bool.and_eq_true, decide_eq_true_eq] at hv
    exact hd hv

/-- A normalized non-null entries count is accepted exactly when it is a
positive integer within the per-frequency cap. -/
theorem entries_some_iff (e : PackageEntriesFields) (k : JsNumber)
    (hk : normalizePackageEntries e = some k) :
    isValidPackageEntries e = true ↔ ∃ n : ℤ, k = jsInt n ∧ 1 ≤ n ∧ entriesCapSpec e n := by
  have hd : ¬(e.recurringPaymentEnabled = true ∧ e.paymentFrequency = .daily) := by
    intro hd
    unfold normalizePackageEntries at hk
    rw [if_pos hd] at hk
    exact absurd hk (by simp)
  obtain ⟨m, rfl⟩ : ∃ m : ℤ, k = jsInt m := by
    unfold normalizePackageEntries at hk
    rw [if_neg hd] at hk
    cases hx : e.entriesCount with
    | none => rw [hx] at hk; simp [jsFiniteTruncOrNull] at hk
    | some n =>
      rw [hx] at hk
      cases n with
      | fin q =>
        simp only [jsFiniteTruncOrNull, JsNumber.isFinite, if_true, JsNumber.trunc,
          Option.some.injEq] at hk
        exact ⟨truncRat q, hk.symm⟩
      | nan => simp [jsFiniteTruncOrNull, JsNumber.isFinite] at hk
      | posInf => simp [jsFiniteTruncOrNull, JsNumber.isFinite] at hk
      | negInf => simp [jsFiniteTruncOrNull, JsNumber.isFinite] at hk
  unfold isValidPackageEntries
  rw [hk]
  cases hb : e.recurringPaymentEnabled <;> cases hf : e.paymentFrequency <;>
    by_cases hm : 1 ≤ m <;>
      simp_all [entriesCapSpec, jsInt, JsNumber.isInteger, JsNumber.jle, Rat.den_intCast,
        Int.cast_le, Int.lt_iff_add_one_le]
  all_goals exact_mod_cast Iff.rfl

/-- C5: the entries count is accepted as null exactly when recurring
payment is enabled with daily frequency; otherwise the stored
(normalized) count must be a positive integer, bounded by 7 for recurring
weekly (8 rejected, 7 accepted), 31 monthly, 365 yearly, and unbounded
above when recurring payment is disabled. -/
theorem claim_C5_entries_count :
    (∀ e : PackageEntriesFields,
      (isValidPackageEntries e = true ∧ normalizePackageEntries e = none) ↔
        (e.recurringPaymentEnabled = true ∧ e.paymentFrequency = .daily))
    ∧ (∀ (e : PackageEntriesFields) (k : JsNumber),
        normalizePackageEntries e = some k →
          (isValidPackageEntries e = true ↔
            ∃ n : ℤ, k = jsInt n ∧ 1 ≤ n ∧ entriesCapSpec e n))
    ∧ isValidPackageEntries
        { recurringPaymentEnabled := true, paymentFrequency := .weekly
          entriesCount := some (jsInt 8) } = false
    ∧ isValidPackageEntries
        { recurringPaymentEnabled := true, paymentFrequency := .weekly
          entriesCount := some (jsInt 7) } = true :=
  ⟨entries_null_iff, entries_some_iff, by decide, by decide⟩

/-- C5 witness: the non-recurring sample with three entries is accepted,
and instantiating the characterization at it yields the positive-integer
form. -/
theorem claim_C5_witness :
    ∃ n : ℤ, jsInt 3 = jsInt n ∧ 1 ≤ n
      ∧ entriesCapSpec
          { recurringPaymentEnabled := false, paymentFrequency := .monthly
            entriesCount := some (jsInt 3) } n :=
  (claim_C5_entries_count.2.1
      { recurringPaymentEnabled := false, paymentFrequency := .monthly
        entriesCount := some (jsInt 3) }
      (jsInt 3) (by decide)).mp (by decide)

/-- C7 (amended): the enrollment check of a package save constrains a set
enrollmentId to an existing enrollment type with a finite price at least
0; a blank enrollmentId is accepted exactly when the enrollment-type
collection is empty, so with any enrollment types on file a blank id is
rejected (with invalidEnrollment). -/
theorem claim_C7_amended_enrollment_check :
    ∀ (input : PackageEnrollmentFields) (enrollments : List EnrollmentType),
      isValidPackageEnrollment input enrollments = true ↔
        enrollmentAcceptedSpec input enrollments := by
  intro input enrollments
  unfold isValidPackageEnrollment enrollmentAcceptedSpec
  by_cases h : jsTrim input.enrollmentId = []
  · simp only [h, if_pos, if_true]
    simp [List.length_eq_zero]
  · rw [if_neg h, if_neg h]
    simp [List.any_eq_true, and_assoc]

/-- C7 counterexample: against a catalog holding one enrollment type, the
fully valid sample payload with a blank enrollmentId is rejected with
invalidEnrollment, refuting that a blank enrollmentId is never rejected
with that code. -/
theorem claim_C7_counterexample :
    samplePackagePayload.enrollmentId = []
    ∧ (createSportPackage sampleCatalogWithEnrollment ("pkg1".toList) sampleIdGen 2025
        samplePackagePayload).1 = .error .invalidEnrollment
    ∧ resOk (createSportPackage sampleCatalog ("pkg1".toList) sampleIdGen 2025
        samplePackagePayload).1 = true :=
  ⟨rfl, by decide, by decide⟩

/-- Folding the incremental step over a digit list computes the plain
numeral fold modulo 97. -/
theorem foldl_mod97 (ds : List Nat) : ∀ a : Nat,
    ds.foldl mod97Step (a % 97) = (ds.foldl (fun x d => x * 10 + d) a) % 97 := by
  induction ds with
  | nil => intro a; simp
  | cons d t ih =>
    intro a
    simp only [List.foldl_cons, mod97Step]
    have hstep : (a % 97 * 10 + d) % 97 = (a * 10 + d) % 97 := by omega
    rw [hstep]
    exact ih (a * 10 + d)

/-- The incremental remainder loop of `isValidIban` computes the full
rearranged numeral modulo 97. -/
theorem ibanMod97_eq (l : Str) : ibanMod97 l = ibanNumeral l % 97 := by
  unfold ibanMod97 ibanNumeral
  suffices h : ∀ a : Nat, l.foldl (fun r c => (ibanCharDigits c).foldl mod97Step r) (a % 97) =
      (l.foldl (fun acc c => (ibanCharDigits c).foldl (fun x d => x * 10 + d) acc) a) % 97 by
    simpa using h 0
  induction l with
  | nil => intro a; simp
  | cons c t ih =>
    intro a
    simp only [List.foldl_cons]
    rw [foldl_mod97]
    exact ih _

/-- No entry of the country length table is zero. -/
theorem nonzero_iban_lengths : ∀ p ∈ IBAN_LENGTHS, p.2 ≠ 0 := by decide

/-- C3: `isValidIban` accepts exactly the strings the specification
describes: after stripping whitespace and uppercasing, the string matches
the IBAN shape, its length equals the per-country entry of the length
table (unknown countries rejected), and the numeral obtained by moving
the first four characters to the end and expanding letters to two-digit
ordinals is congruent to 1 modulo 97. -/
theorem claim_C3_iban_matches_spec : ∀ v : Str, isValidIban v = isValidIbanSpec v := by
  intro v
  unfold isValidIban isValidIbanSpec
  by_cases hs : ibanShapeOk (normalizeIban v) = false
  · simp [hs]
  · have hs2 : ibanShapeOk (normalizeIban v) = true := by simpa using hs
    cases hl : IBAN_LENGTHS.lookup ((normalizeIban v).take 2) with
    | none => simp [hs2, hl]
    | some expected =>
      have hne : expected ≠ 0 := nonzero_iban_lengths _ (lookup_mem hl)
      by_cases hlen : (normalizeIban v).length = expected
      · simp [hs2, hl, hne, hlen, ibanMod97_eq]
      · simp [hs2, hl, hne, hlen]

/-- C8: removing an existing WhatsApp account always succeeds (no in-use
error exists for accounts) and cascades: each package keeps all its other
fields and only loses the removed id from `whatsappAccountIds`; packages
not referencing the account are unchanged entirely; the other collections
are untouched. -/
theorem claim_C8_remove_whatsapp_cascades :
    ∀ (cat : Catalog) (id : Str),
      (cat.whatsappAccounts.any (fun item => decide (item.id = id))) = true →
        resOk (removeWhatsAppAccount cat id).1 = true
        ∧ (removeWhatsAppAccount cat id).2.1.packages =
            cat.packages.map (fun item =>
              { item with
                whatsappAccountIds :=
                  item.whatsappAccountIds.filter (fun accountId => decide (accountId ≠ id)) })
        ∧ (∀ p ∈ cat.packages, id ∉ p.whatsappAccountIds →
            ({ p with
               whatsappAccountIds :=
                 p.whatsappAccountIds.filter (fun accountId => decide (accountId ≠ id)) } :
              SportPackage) = p)
        ∧ (removeWhatsAppAccount cat id).2.1.whatsappAccounts =
            cat.whatsappAccounts.filter (fun item => decide (item.id ≠ id))
        ∧ (removeWhatsAppAccount cat id).2.1.sportCategories = cat.sportCategories
        ∧ (removeWhatsAppAccount cat id).2.1.fields = cat.fields
        ∧ (removeWhatsAppAccount cat id).2.1.enrollments = cat.enrollments
        ∧ (removeWhatsAppAccount cat id).2.1.additionalServices = cat.additionalServices
        ∧ (removeWhatsAppAccount cat id).2.1.companies = cat.companies := by
  intro cat id h
  have hex := List.any_eq_true.mp h
  have hsome : (cat.whatsappAccounts.find? (fun item => decide (item.id = id))).isSome :=
    List.find?_isSome.mpr hex
  obtain ⟨current, hf⟩ := Option.isSome_iff_exists.mp hsome
  unfold removeWhatsAppAccount
  rw [hf]
  refine ⟨rfl, rfl, ?_, rfl, rfl, rfl, rfl, rfl, rfl⟩
  intro p _ hid
  have hfil : p.whatsappAccountIds.filter (fun accountId => decide (accountId ≠ id)) =
      p.whatsappAccountIds := by
    apply List.filter_eq_self.mpr
    intro a ha
    simp only [decide_eq_true_eq, ne_eq]
    intro he
    exact hid (he ▸ ha)
  rw [hfil]

/-- C8 witness: removing the referenced sample account succeeds and strips
only the reference. -/
theorem claim_C8_witness :
    resOk (removeWhatsAppAccount sampleCatalogWa ("w1".toList)).1 = true
    ∧ (removeWhatsAppAccount sampleCatalogWa ("w1".toList)).2.1.packages =
        sampleCatalogWa.packages.map (fun item =>
          { item with
            whatsappAccountIds :=
              item.whatsappAccountIds.filter
                (fun accountId => decide (accountId ≠ ("w1".toList : Str))) }) :=
  have h := claim_C8_remove_whatsapp_cascades sampleCatalogWa ("w1".toList) (by decide)
  ⟨h.1, h.2.1⟩

/-- Every stored package produced by a successful create or update has
duplicate-free `trainerIds` and `whatsappAccountIds`, and at most one
selection per `serviceId` in both additional-service lists. -/
theorem createSportPackage_ok_dedup (cat : Catalog) (freshId : Str) (gen : PackageIdGen)
    (year : ℤ) (p : SavePackagePayload) (item : SportPackage) (c2 : Catalog) (evs : List Str)
    (h : createSportPackage cat freshId gen year p = (.ok item, c2, evs)) :
    item.trainerIds.Nodup
    ∧ item.whatsappAccountIds.Nodup
    ∧ (item.additionalFixedServices.map (fun s => s.serviceId)).Nodup
    ∧ (item.additionalVariableServices.map (fun s => s.serviceId)).Nodup
    ∧ (∀ sel ∈ item.additionalFixedServices,
        (rawAdditionalSelections p.additionalFixedServices).reverse.find?
          (fun s => decide (s.serviceId = sel.serviceId)) = some sel)
    ∧ (∀ sel ∈ item.additionalVariableServices,
        (rawAdditionalSelections p.additionalVariableServices).reverse.find?
          (fun s => decide (s.serviceId = sel.serviceId)) = some sel)
    ∧ item ∈ c2.packages := by
  simp only [createSportPackage] at h
  cases hv : validatePreparedPackagePayload p (preparePackagePayload gen year p) cat with
  | some e => rw [hv] at h; simp at h
  | none =>
    rw [hv] at h
    simp only [writeStoredCatalog, Prod.mk.injEq, Except.ok.injEq] at h
    obtain ⟨hitem, hc2, _⟩ := h
    have htr : item.trainerIds = normalizePackageTrainers p.trainerIds := by
      rw [← hitem]; rfl
    have hwa : item.whatsappAccountIds = normalizePackageWhatsAppAccountIds p.whatsappAccountIds := by
      rw [← hitem]; rfl
    have haf : item.additionalFixedServices = normalizePackageAdditionalServices p.additionalFixedServices := by
      rw [← hitem]; rfl
    have hav : item.additionalVariableServices = normalizePackageAdditionalServices p.additionalVariableServices := by
      rw [← hitem]; rfl
    refine ⟨?_, ?_, ?_, ?_, ?_, ?_, ?_⟩
    · rw [htr]; exact dedupFirst_nodup _
    · rw [hwa]; exact dedupFirst_nodup _
    · rw [haf]; exact dedupLastByKey_keys_nodup _
    · rw [hav]; exact dedupLastByKey_keys_nodup _
    · rw [haf]; exact dedupLastByKey_last_wins _
    · rw [hav]; exact dedupLastByKey_last_wins _
    · rw [← hc2, ← hitem]
      exact List.mem_append_right _ (List.mem_singleton_self _)

/-- The same invariant for `updateSportPackage`; the rebuilt item replaces
the matching entry in `packages`. -/
theorem updateSportPackage_ok_dedup (cat : Catalog) (id : Str) (gen : PackageIdGen)
    (year : ℤ) (p : SavePackagePayload) (item : SportPackage) (c2 : Catalog) (evs : List Str)
    (h : updateSportPackage cat id gen year p = (.ok item, c2, evs)) :
    item.trainerIds.Nodup
    ∧ item.whatsappAccountIds.Nodup
    ∧ (item.additionalFixedServices.map (fun s => s.serviceId)).Nodup
    ∧ (item.additionalVariableServices.map (fun s => s.serviceId)).Nodup
    ∧ (∀ sel ∈ item.additionalFixedServices,
        (rawAdditionalSelections p.additionalFixedServices).reverse.find?
          (fun s => decide (s.serviceId = sel.serviceId)) = some sel)
    ∧ (∀ sel ∈ item.additionalVariableServices,
        (rawAdditionalSelections p.additionalVariableServices).reverse.find?
          (fun s => decide (s.serviceId = sel.serviceId)) = some sel)
    ∧ item ∈ c2.packages := by
  simp only [updateSportPackage] at h
  cases hv : validatePreparedPackagePayload p (preparePackagePayload gen year p) cat with
  | some e => rw [hv] at h; simp at h
  | none =>
    rw [hv] at h
    cases hf : cat.packages.find? (fun it => decide (it.id = id)) with
    | none => rw [hf] at h; simp at h
    | some current =>
      rw [hf] at h
      simp only [writeStoredCatalog, Prod.mk.injEq, Except.ok.injEq] at h
      obtain ⟨hitem, hc2, _⟩ := h
      have hid : current.id = id := by
        have hp := List.find?_some hf
        simpa using hp
      have htr : item.trainerIds = normalizePackageTrainers p.trainerIds := by
        rw [← hitem]; rfl
      have hwa : item.whatsappAccountIds = normalizePackageWhatsAppAccountIds p.whatsappAccountIds := by
        rw [← hitem]; rfl
      have haf : item.additionalFixedServices = normalizePackageAdditionalServices p.additionalFixedServices := by
        rw [← hitem]; rfl
      have hav : item.additionalVariableServices = normalizePackageAdditionalServices p.additionalVariableServices := by
        rw [← hitem]; rfl
      refine ⟨?_, ?_, ?_, ?_, ?_, ?_, ?_⟩
      · rw [htr]; exact dedupFirst_nodup _
      · rw [hwa]; exact dedupFirst_nodup _
      · rw [haf]; exact dedupLastByKey_keys_nodup _
      · rw [hav]; exact dedupLastByKey_keys_nodup _
      · rw [haf]; exact dedupLastByKey_last_wins _
      · rw [hav]; exact dedupLastByKey_last_wins _
      · rw [← hc2, ← hitem]
        have hcur : current ∈ cat.packages := List.mem_of_find?_eq_some hf
        have hmem := List.mem_map_of_mem
          (fun existing : SportPackage =>
            if existing.id = id
            then buildSportPackageFromPayload id p (preparePackagePayload gen year p) (some current)
            else existing) hcur
        simpa [hid] using hmem

/-- The package `createSportPackage sampleCatalog "pkg1" …` stores. -/
def sampleCreatedPackage : SportPackage :=
  buildSportPackageFromPayload ("pkg1".toList) samplePackagePayload
    (preparePackagePayload sampleIdGen 2025 samplePackagePayload) none

/-- `sampleCatalog` after that successful create. -/
def sampleCreatedCatalog : Catalog :=
  { sampleCatalog with packages := sampleCatalog.packages ++ [sampleCreatedPackage] }

/-- C10: every package stored by a successful `createSportPackage` or
`updateSportPackage` has duplicate-free reference lists — `trainerIds` and
`whatsappAccountIds` contain no repeated element (first occurrence kept),
and each additional-service list keeps at most one selection per
`serviceId`, the kept selection being the last occurrence of that
(trimmed, non-empty) `serviceId` in the raw payload list, so a repeated
`serviceId` takes the last occurrence's `isActive` flag. -/
theorem claim_C10_stored_package_dedup :
    (∀ (cat : Catalog) (freshId : Str) (gen : PackageIdGen) (year : ℤ)
       (p : SavePackagePayload) (item : SportPackage) (c2 : Catalog) (evs : List Str),
       createSportPackage cat freshId gen year p = (.ok item, c2, evs) →
         item.trainerIds.Nodup
         ∧ item.whatsappAccountIds.Nodup
         ∧ (item.additionalFixedServices.map (fun s => s.serviceId)).Nodup
         ∧ (item.additionalVariableServices.map (fun s => s.serviceId)).Nodup
         ∧ (∀ sel ∈ item.additionalFixedServices,
             (rawAdditionalSelections p.additionalFixedServices).reverse.find?
               (fun s => decide (s.serviceId = sel.serviceId)) = some sel)
         ∧ (∀ sel ∈ item.additionalVariableServices,
             (rawAdditionalSelections p.additionalVariableServices).reverse.find?
               (fun s => decide (s.serviceId = sel.serviceId)) = some sel)
         ∧ item ∈ c2.packages)
    ∧ (∀ (cat : Catalog) (id : Str) (gen : PackageIdGen) (year : ℤ)
         (p : SavePackagePayload) (item : SportPackage) (c2 : Catalog) (evs : List Str),
         updateSportPackage cat id gen year p = (.ok item, c2, evs) →
           item.trainerIds.Nodup
           ∧ item.whatsappAccountIds.Nodup
           ∧ (item.additionalFixedServices.map (fun s => s.serviceId)).Nodup
           ∧ (item.additionalVariableServices.map (fun s => s.serviceId)).Nodup
           ∧ (∀ sel ∈ item.additionalFixedServices,
               (rawAdditionalSelections p.additionalFixedServices).reverse.find?
                 (fun s => decide (s.serviceId = sel.serviceId)) = some sel)
           ∧ (∀ sel ∈ item.additionalVariableServices,
               (rawAdditionalSelections p.additionalVariableServices).reverse.find?
                 (fun s => decide (s.serviceId = sel.serviceId)) = some sel)
           ∧ item ∈ c2.packages) :=
  ⟨fun cat freshId gen year p item c2 evs h =>
      createSportPackage_ok_dedup cat freshId gen year p item c2 evs h,
    fun cat id gen year p item c2 evs h =>
      updateSportPackage_ok_dedup cat id gen year p item c2 evs h⟩

/-- C10 witness: a concrete successful create (payload with repeated
trainer id and a repeated additional-service selection) stores a package
with duplicate-free lists. -/
theorem claim_C10_witness :
    sampleCreatedPackage.trainerIds.Nodup
    ∧ sampleCreatedPackage.whatsappAccountIds.Nodup
    ∧ (sampleCreatedPackage.additionalFixedServices.map (fun s => s.serviceId)).Nodup
    ∧ sampleCreatedPackage ∈ sampleCreatedCatalog.packages := by
  have h := claim_C10_stored_package_dedup.1 sampleCatalog ("pkg1".toList) sampleIdGen 2025
    samplePackagePayload sampleCreatedPackage sampleCreatedCatalog
    [PACKAGE_CATALOG_CHANGED_EVENT] (by decide)
  exact ⟨h.1, h.2.1, h.2.2.1, h.2.2.2.2.2.2⟩

/-- `strLe` is total. -/
theorem strLe_total : ∀ a b : Str, strLe a b = true ∨ strLe b a = true
  | [], _ => Or.inl rfl
  | _ :: _, [] => Or.inr rfl
  | a :: as, b :: bs => by
    by_cases hab : a < b
    · left; simp [strLe, hab]
    · by_cases hba : b < a
      · right; simp [strLe, hba]
      · rcases strLe_total as bs with h | h
        · left; simp [strLe, hab, hba, h]
        · right; simp [strLe, hba, hab, h]

/-- `strLe` is transitive. -/
theorem strLe_trans : ∀ a b c : Str,
    strLe a b = true → strLe b c = true → strLe a c = true
  | [], _, _, _, _ => rfl
  | _ :: _, [], _, h1, _ => by simp [strLe] at h1
  | _ :: _, _ :: _, [], _, h2 => by simp [strLe] at h2
  | a :: as, b :: bs, c :: cs, h1, h2 => by
    simp only [strLe] at h1 h2 ⊢
    by_cases hab : a < b
    · by_cases hbc : b < c
      · simp [lt_trans hab hbc]
      · rw [if_neg hbc] at h2
        by_cases hcb : c < b
        · rw [if_pos hcb] at h2; exact absurd h2 (by simp)
        · have hbceq : b = c := le_antisymm (not_lt.mp hcb) (not_lt.mp hbc)
          subst hbceq
          simp [hab]
    · rw [if_neg hab] at h1
      by_cases hba : b < a
      · rw [if_pos hba] at h1; exact absurd h1 (by simp)
      · rw [if_neg hba] at h1
        have habeq : a = b := le_antisymm (not_lt.mp hba) (not_lt.mp hab)
        subst habeq
        by_cases hac : a < c
        · simp [hac]
        · rw [if_neg hac] at h2 ⊢
          by_cases hca : c < a
          · rw [if_pos hca] at h2; exact absurd h2 (by simp)
          · rw [if_neg hca] at h2 ⊢
            exact strLe_trans as bs cs h1 h2

/-- `strLe` is antisymmetric. -/
theorem strLe_antisymm : ∀ a b : Str, strLe a b = true → strLe b a = true → a = b
  | [], [], _, _ => rfl
  | [], _ :: _, _, h2 => by simp [strLe] at h2
  | _ :: _, [], h1, _ => by simp [strLe] at h1
  | a :: as, b :: bs, h1, h2 => by
    simp only [strLe] at h1 h2
    by_cases hab : a < b
    · rw [if_neg (lt_asymm hab), if_pos hab] at h2
      exact absurd h2 (by simp)
    · rw [if_neg hab] at h1
      by_cases hba : b < a
      · rw [if_pos hba] at h1; exact absurd h1 (by simp)
      · rw [if_neg hba] at h1
        rw [if_neg hba, if_neg hab] at h2
        have habeq : a = b := le_antisymm (not_lt.mp hba) (not_lt.mp hab)
        rw [habeq, strLe_antisymm as bs h1 h2]

instance : IsTotal Str StrLe := ⟨fun a b => strLe_total a b⟩

instance : IsTrans Str StrLe := ⟨fun a b c h1 h2 => strLe_trans a b c h1 h2⟩

instance : IsAntisymm Str StrLe := ⟨fun a b h1 h2 => strLe_antisymm a b h1 h2⟩

/-- The weekday values recorded for time `t`, in occurrence order. -/
def weekdaysAt (P : List (Str × JsNumber)) (t : Str) : List JsNumber :=
  (P.filter (fun p => decide (p.1 = t))).map Prod.snd

/-- Canonical form of the `grouped` map: the distinct times in
first-occurrence order, each carrying its weekdays in occurrence order. -/
def groupSpec (P : List (Str × JsNumber)) : List (Str × List JsNumber) :=
  (dedupFirst (P.map Prod.fst)).map (fun t => (t, weekdaysAt P t))

/-- Appending one pair appends its weekday to its own time bucket. -/
theorem weekdaysAt_append_one (P : List (Str × JsNumber)) (t : Str) (p : Str × JsNumber) :
    weekdaysAt (P ++ [p]) t =
      weekdaysAt P t ++ (if p.1 = t then [p.2] else []) := by
  by_cases h : p.1 = t <;> simp [weekdaysAt, List.filter_append, h]

/-- A time that never occurs has an empty bucket. -/
theorem weekdaysAt_eq_nil (P : List (Str × JsNumber)) (t : Str)
    (h : t ∉ P.map Prod.fst) : weekdaysAt P t = [] := by
  have hf : P.filter (fun p => decide (p.1 = t)) = [] := by
    rw [List.filter_eq_nil]
    intro p hp
    simp only [decide_eq_true_eq]
    intro he
    exact h (List.mem_map.mpr ⟨p, hp, he⟩)
  simp [weekdaysAt, hf]

/-- Membership in a time bucket is membership of the pair. -/
theorem mem_weekdaysAt {P : List (Str × JsNumber)} {t : Str} {w : JsNumber} :
    w ∈ weekdaysAt P t ↔ (t, w) ∈ P := by
  simp only [weekdaysAt, List.mem_map, List.mem_filter, decide_eq_true_eq]
  constructor
  · rintro ⟨p, ⟨hp, h1⟩, h2⟩
    have hpe : p = (t, w) := by
      cases p
      simp_all
    rw [← hpe]
    exact hp
  · intro h
    exact ⟨(t, w), ⟨h, rfl⟩, rfl⟩

/-- A time occurs among the firsts iff it is some pair's time. -/
theorem mem_map_fst_iff {P : List (Str × JsNumber)} {t : Str} :
    t ∈ P.map Prod.fst ↔ ∃ w, (t, w) ∈ P := by
  simp only [List.mem_map]
  constructor
  · rintro ⟨p, hp, rfl⟩
    exact ⟨p.2, hp⟩
  · rintro ⟨w, hw⟩
    exact ⟨(t, w), hw, rfl⟩

/-- The keys of the canonical grouping are the deduplicated times. -/
theorem groupSpec_keys (P : List (Str × JsNumber)) :
    (groupSpec P).map Prod.fst = dedupFirst (P.map Prod.fst) := by
  simp only [groupSpec, List.map_map]
  have : (Prod.fst ∘ fun t => (t, weekdaysAt P t)) = fun t : Str => t := rfl
  rw [this, List.map_id']

/-- A valid weekday is an integer between 0 and 6. -/
theorem validWeekday_jsInt {w : JsNumber} (h : validWeekday w) :
    ∃ k : ℤ, 0 ≤ k ∧ k ≤ 6 ∧ w = jsInt k := by
  cases w with
  | fin q =>
    obtain ⟨hd, h0, h6⟩ := h
    refine ⟨q.num, h0, h6, ?_⟩
    simp [jsInt, (Rat.den_eq_one_iff q).mp hd]
  | nan => exact absurd h (fun hc => hc)
  | posInf => exact absurd h (fun hc => hc)
  | negInf => exact absurd h (fun hc => hc)

/-- On the valid weekdays 0–6 the sort key is injective. -/
theorem weekdaySortKey_inj {a b : JsNumber} (ha : validWeekday a) (hb : validWeekday b)
    (h : weekdaySortKey a = weekdaySortKey b) : a = b := by
  obtain ⟨k, hk0, hk6, rfl⟩ := validWeekday_jsInt ha
  obtain ⟨m, hm0, hm6, rfl⟩ := validWeekday_jsInt hb
  revert h
  interval_cases k <;> interval_cases m <;> decide

/-- Two sorted lists of valid weekdays that are permutations of each other
are equal (their sort keys are distinct, so ties cannot hide reordering). -/
theorem sorted_key_perm_eq : ∀ (l1 l2 : List JsNumber), l1.Perm l2 →
    l1.Sorted WeekdayKeyLe → l2.Sorted WeekdayKeyLe →
    (∀ a ∈ l1, validWeekday a) → l1 = l2
  | [], l2, hp, _, _, _ => (List.Perm.eq_nil hp.symm).symm
  | a :: t1, l2, hp, hs1, hs2, hv => by
    cases l2 with
    | nil => exact absurd hp.eq_nil (by simp)
    | cons b t2 =>
      have hb1 : b ∈ a :: t1 := hp.mem_iff.mpr (List.mem_cons_self _ _)
      have ha2 : a ∈ b :: t2 := hp.mem_iff.mp (List.mem_cons_self _ _)
      have hkab : weekdaySortKey a ≤ weekdaySortKey b := by
        rcases List.mem_cons.mp hb1 with h | h
        · rw [h]
        · exact (List.sorted_cons.mp hs1).1 b h
      have hkba : weekdaySortKey b ≤ weekdaySortKey a := by
        rcases List.mem_cons.mp ha2 with h | h
        · rw [h]
        · exact (List.sorted_cons.mp hs2).1 a h
      have hab : a = b := weekdaySortKey_inj (hv a (List.mem_cons_self _ _)) (hv b hb1)
        (Nat.le_antisymm hkab hkba)
      subst hab
      have ht := sorted_key_perm_eq t1 t2 hp.cons_inv (List.sorted_cons.mp hs1).2
        (List.sorted_cons.mp hs2).2 (fun x hx => hv x (List.mem_cons_of_mem _ hx))
      rw [ht]

/-- Sorting by the weekday key is permutation-invariant on valid weekdays. -/
theorem sortedDays_eq {d1 d2 : List JsNumber} (hp : d1.Perm d2)
    (hv : ∀ a ∈ d1, validWeekday a) :
    List.insertionSort WeekdayKeyLe d1 = List.insertionSort WeekdayKeyLe d2 :=
  sorted_key_perm_eq _ _
    ((List.perm_insertionSort _ _).trans (hp.trans (List.perm_insertionSort _ _).symm))
    (List.sorted_insertionSort _ _) (List.sorted_insertionSort _ _)
    (fun a ha => hv a ((List.mem_insertionSort _).mp ha))

/-- One upsert step on the canonical grouping appends the pair. -/
theorem timeUpsert_groupSpec (P : List (Str × JsNumber)) (t : Str) (w : JsNumber) :
    timeUpsert (groupSpec P) t w = groupSpec (P ++ [(t, w)]) := by
  have hkeysapp : (P ++ [(t, w)]).map Prod.fst = P.map Prod.fst ++ [t] := by
    simp
  by_cases hmem : t ∈ P.map Prod.fst
  · have hany : (groupSpec P).any (fun e => decide (e.1 = t)) = true := by
      rw [List.any_eq_true]
      refine ⟨(t, weekdaysAt P t), ?_, by simp⟩
      exact List.mem_map.mpr ⟨t, dedupFirst_mem.mpr hmem, rfl⟩
    rw [timeUpsert, if_pos hany]
    have hkeys : dedupFirst ((P ++ [(t, w)]).map Prod.fst) = dedupFirst (P.map Prod.fst) := by
      rw [hkeysapp, dedupFirst_append_one, if_pos hmem, List.append_nil]
    simp only [groupSpec, hkeys, List.map_map]
    apply List.map_congr_left
    intro x hx
    simp only [Function.comp]
    by_cases hxt : x = t
    · subst hxt
      simp [weekdaysAt_append_one]
    · have hnt : ¬ ((t, w).1 = x) := fun h => hxt h.symm
      rw [weekdaysAt_append_one, if_neg hnt, List.append_nil]
      simp [hxt]
  · have hnot : ¬ (groupSpec P).any (fun e => decide (e.1 = t)) = true := by
      rw [List.any_eq_true]
      rintro ⟨e, he, het⟩
      simp only [decide_eq_true_eq] at het
      have hke : e.1 ∈ (groupSpec P).map Prod.fst := List.mem_map_of_mem _ he
      rw [groupSpec_keys] at hke
      rw [het] at hke
      exact hmem (dedupFirst_mem.mp hke)
    rw [timeUpsert, if_neg hnot]
    simp only [groupSpec]
    rw [hkeysapp, dedupFirst_append_one, if_neg hmem, List.map_append]
    congr 1
    · apply List.map_congr_left
      intro x hx
      have hxP : x ∈ P.map Prod.fst := dedupFirst_mem.mp hx
      have hnt : ¬ ((t, w).1 = x) := by
        intro h
        rw [show ((t, w).1 : Str) = t from rfl] at h
        rw [h] at hmem
        exact hmem hxP
      rw [weekdaysAt_append_one, if_neg hnt, List.append_nil]
    · rw [List.map_singleton, weekdaysAt_append_one, weekdaysAt_eq_nil P t hmem]
      simp

/-- `groupByTime` computes the canonical grouping of the (time, weekday)
pairs. -/
theorem groupByTime_eq_groupSpec (l : List PackageGroupSchedule) :
    groupByTime l = groupSpec (schedPairs l) := by
  induction l using List.reverseRecOn with
  | nil => rfl
  | append_singleton l s ih =>
    have hstep : groupByTime (l ++ [s]) = timeUpsert (groupByTime l) s.time s.weekday := by
      rw [groupByTime, groupByTime, List.foldl_append]
      rfl
    have hpairs : schedPairs (l ++ [s]) = schedPairs l ++ [(s.time, s.weekday)] := by
      simp [schedPairs]
    rw [hstep, ih, timeUpsert_groupSpec, hpairs]

/-- `formatGroupSchedules`, canonically: one line per distinct time in
lexicographic time order, each line showing the deduplicated weekdays of
that time sorted by the Monday-first key. -/
theorem formatGroupSchedules_eq_spec (dayLabel : JsNumber → Str) (conj atLabel : Str)
    (l : List PackageGroupSchedule) :
    formatGroupSchedules dayLabel conj atLabel l =
      (List.insertionSort StrLe (dedupFirst ((schedPairs l).map Prod.fst))).map (fun t =>
        joinWithConjunction ((List.insertionSort WeekdayKeyLe
            (dedupFirst (weekdaysAt (schedPairs l) t))).map dayLabel) conj
          ++ [spaceChar] ++ atLabel ++ [spaceChar] ++ formatHour t) := by
  simp only [formatGroupSchedules]
  rw [groupByTime_eq_groupSpec, groupSpec]
  rw [← List.map_insertionSort StrLe EntryLe (fun t => (t, weekdaysAt (schedPairs l) t))
    (dedupFirst ((schedPairs l).map Prod.fst)) (fun _ _ _ _ => Iff.rfl)]
  rw [List.map_map]
  rfl

/-- The display output depends only on the membership of the (time,
weekday) pairs, provided the weekdays are valid (0–6). -/
theorem formatGroupSchedules_order_independent (dayLabel : JsNumber → Str)
    (conj atLabel : Str) (l1 l2 : List PackageGroupSchedule)
    (hv1 : ∀ s ∈ l1, validWeekday s.weekday)
    (h12 : ∀ p ∈ schedPairs l1, p ∈ schedPairs l2)
    (h21 : ∀ p ∈ schedPairs l2, p ∈ schedPairs l1) :
    formatGroupSchedules dayLabel conj atLabel l1 =
      formatGroupSchedules dayLabel conj atLabel l2 := by
  rw [formatGroupSchedules_eq_spec, formatGroupSchedules_eq_spec]
  have hvp1 : ∀ p ∈ schedPairs l1, validWeekday p.2 := by
    intro p hp
    simp only [schedPairs, List.mem_map] at hp
    obtain ⟨s, hs, rfl⟩ := hp
    exact hv1 s hs
  have hkeys : List.insertionSort StrLe (dedupFirst ((schedPairs l1).map Prod.fst)) =
      List.insertionSort StrLe (dedupFirst ((schedPairs l2).map Prod.fst)) := by
    apply List.eq_of_perm_of_sorted ?_ (List.sorted_insertionSort _ _)
      (List.sorted_insertionSort _ _)
    have hperm : List.Perm (dedupFirst ((schedPairs l1).map Prod.fst))
        (dedupFirst ((schedPairs l2).map Prod.fst)) := by
      refine (List.perm_ext_iff_of_nodup (dedupFirst_nodup _) (dedupFirst_nodup _)).mpr ?_
      intro t
      rw [dedupFirst_mem, dedupFirst_mem, mem_map_fst_iff, mem_map_fst_iff]
      constructor
      · rintro ⟨w, hw⟩
        exact ⟨w, h12 _ hw⟩
      · rintro ⟨w, hw⟩
        exact ⟨w, h21 _ hw⟩
    exact (List.perm_insertionSort _ _).trans
      (hperm.trans (List.perm_insertionSort _ _).symm)
  rw [hkeys]
  apply List.map_congr_left
  intro t ht
  have hdays : List.insertionSort WeekdayKeyLe (dedupFirst (weekdaysAt (schedPairs l1) t)) =
      List.insertionSort WeekdayKeyLe (dedupFirst (weekdaysAt (schedPairs l2) t)) := by
    apply sortedDays_eq
    · refine (List.perm_ext_iff_of_nodup (dedupFirst_nodup _) (dedupFirst_nodup _)).mpr ?_
      intro w
      rw [dedupFirst_mem, dedupFirst_mem, mem_weekdaysAt, mem_weekdaysAt]
      exact ⟨fun h => h12 _ h, fun h => h21 _ h⟩
    · intro a ha
      rw [dedupFirst_mem] at ha
      exact hvp1 (t, a) (mem_weekdaysAt.mp ha)
  rw [hdays]

/-- The display emits exactly one line per distinct time value. -/
theorem formatGroupSchedules_length (dayLabel : JsNumber → Str) (conj atLabel : Str)
    (l : List PackageGroupSchedule) :
    (formatGroupSchedules dayLabel conj atLabel l).length =
      (dedupFirst (l.map (fun s => s.time))).length := by
  simp only [formatGroupSchedules]
  rw [List.length_map, List.length_insertionSort, groupByTime_eq_groupSpec, groupSpec,
    List.length_map]
  congr 2
  simp [schedPairs, List.map_map]

/-- Monday 17:00, as a group schedule row. -/
def schedMonday : PackageGroupSchedule :=
  { id := "a".toList
    weekday := jsInt 1
    time := "17:00".toList }

/-- Wednesday 17:00. -/
def schedWednesday : PackageGroupSchedule :=
  { id := "b".toList
    weekday := jsInt 3
    time := "17:00".toList }

/-- An out-of-range weekday value 7 at 17:00. -/
def schedDay7 : PackageGroupSchedule :=
  { id := "c".toList
    weekday := jsInt 7
    time := "17:00".toList }

/-- An out-of-range weekday value 8 at 17:00. -/
def schedDay8 : PackageGroupSchedule :=
  { id := "d".toList
    weekday := jsInt 8
    time := "17:00".toList }

/-- C6 (amended): for weekday values in the valid range 0–6 the
group-schedule display is an order-independent function of the set of
(time, weekday) pairs — any two schedule lists with the same pairs
(regardless of order or duplication) render identically; the output has
exactly one line per distinct time; and the claimed example renders as
one line, Monday before Wednesday (the hour separator being a dot:
"17.00"). Out-of-range weekdays break order independence, because they
all share the fallback sort key 99 and the stable sort keeps their input
order (see the counterexample). -/
theorem claim_C6_amended_schedule_display :
    (∀ (dayLabel : JsNumber → Str) (conj atLabel : Str)
       (l1 l2 : List PackageGroupSchedule),
       (∀ s ∈ l1, validWeekday s.weekday) →
       (∀ p ∈ schedPairs l1, p ∈ schedPairs l2) →
       (∀ p ∈ schedPairs l2, p ∈ schedPairs l1) →
       formatGroupSchedules dayLabel conj atLabel l1 =
         formatGroupSchedules dayLabel conj atLabel l2)
    ∧ (∀ (dayLabel : JsNumber → Str) (conj atLabel : Str)
         (l : List PackageGroupSchedule),
         (formatGroupSchedules dayLabel conj atLabel l).length =
           (dedupFirst (l.map (fun s => s.time))).length)
    ∧ formatGroupSchedules engWeekdayLabel ("and".toList) ("at".toList)
        [schedMonday, schedWednesday] =
        [("Monday and Wednesday at 17.00".toList : Str)] :=
  ⟨formatGroupSchedules_order_independent, formatGroupSchedules_length, by decide⟩

/-- C6 counterexample: two schedule lists with the same set of (time,
weekday) pairs, both using out-of-range weekday values 7 and 8, render
differently — the display is not order-independent in general. -/
theorem claim_C6_counterexample :
    (∀ p ∈ schedPairs [schedDay7, schedDay8], p ∈ schedPairs [schedDay8, schedDay7])
    ∧ (∀ p ∈ schedPairs [schedDay8, schedDay7], p ∈ schedPairs [schedDay7, schedDay8])
    ∧ formatGroupSchedules engWeekdayLabel ("and".toList) ("at".toList)
        [schedDay7, schedDay8] ≠
      formatGroupSchedules engWeekdayLabel ("and".toList) ("at".toList)
        [schedDay8, schedDay7] := by
  decide

/-- C6 witness: a concrete reordered, duplicated schedule list renders the
same lines as the original. -/
theorem claim_C6_witness :
    formatGroupSchedules engWeekdayLabel ("and".toList) ("at".toList)
        [schedMonday, schedWednesday] =
      formatGroupSchedules engWeekdayLabel ("and".toList) ("at".toList)
        [schedWednesday, schedMonday, schedMonday] :=
  claim_C6_amended_schedule_display.1 engWeekdayLabel ("and".toList) ("at".toList)
    [schedMonday, schedWednesday] [schedWednesday, schedMonday, schedMonday]
    (by decide) (by decide) (by decide)
